import Mathlib

/-!
Shallow embedding of the Datasource Federation Session Manager of
qwery-core: identifier sanitizer, provider registry, foreign
attachment, reconciler (`syncDatasources`), connection pool,
catalog lister (`listAvailableSheets`) and `deleteSheet`, together
with theorems settling the specification claims about them.

JavaScript strings are modelled as Lean `String`; the source's
`Set`/`Map` as lists in insertion order, with the key uniqueness the
originals guarantee stated as hypotheses where a proof needs it;
fallible code returns `Except`; engine calls (`conn.run` and friends)
are oracles passed in explicitly.
-/

namespace Qwery

instance {e a : Type} [DecidableEq e] [DecidableEq a] : DecidableEq (Except e a) :=
  fun x y =>
    match x, y with
    | .ok v, .ok w =>
      if h : v = w then isTrue (by rw [h]) else
        isFalse (fun hc => h (Except.ok.inj hc))
    | .error v, .error w =>
      if h : v = w then isTrue (by rw [h]) else
        isFalse (fun hc => h (Except.error.inj hc))
    | .ok _, .error _ => isFalse (fun hc => Except.noConfusion hc)
    | .error _, .ok _ => isFalse (fun hc => Except.noConfusion hc)

/-! ### Character classes (ASCII, as in the source's regexes) -/

/-- `[a-zA-Z0-9_]` of the source regex, by code point. -/
def isWordChar (c : Char) : Bool :=
  (48 ≤ c.toNat && c.toNat ≤ 57) || (65 ≤ c.toNat && c.toNat ≤ 90) ||
    (97 ≤ c.toNat && c.toNat ≤ 122) || c.toNat = 95

/-- `[a-zA-Z]` of the source regex `/^[a-zA-Z]/`. -/
def isAsciiLetter (c : Char) : Bool :=
  (65 ≤ c.toNat && c.toNat ≤ 90) || (97 ≤ c.toNat && c.toNat ≤ 122)

/-- `[a-z]`. -/
def isLowerAlpha (c : Char) : Bool :=
  97 ≤ c.toNat && c.toNat ≤ 122

/-- `[0-9]`. -/
def isDigit09 (c : Char) : Bool :=
  48 ≤ c.toNat && c.toNat ≤ 57

/-- ASCII lowercasing: models JS `toLowerCase` on the characters the
sanitizer can reach at that step (all in `[A-Za-z0-9_]`, where Unicode
and ASCII lowercasing coincide). -/
def toLowerChar (c : Char) : Char :=
  if 65 ≤ c.toNat && c.toNat ≤ 90 then Char.ofNat (c.toNat + 32) else c

/-- Whitespace as trimmed by JS `String.trim` (ASCII part; the inputs of
interest contain no exotic Unicode spaces). -/
def isSpaceChar (c : Char) : Bool :=
  c = ' ' || c = '\t' || c = '\n' || c = '\r' || c.toNat = 11 || c.toNat = 12

/-- JS `String.trim`: drop leading and trailing whitespace. -/
def trimString (s : String) : String :=
  String.mk (((s.data.dropWhile isSpaceChar).reverse.dropWhile isSpaceChar).reverse)

/-- Contiguous-substring test on character lists. -/
def isSubList (pat : List Char) : List Char → Bool
  | [] => pat.isEmpty
  | c :: rest => pat.isPrefixOf (c :: rest) || isSubList pat rest

/-- Substring test, models JS `String.includes`. -/
def containsSub (s pat : String) : Bool :=
  isSubList pat.data s.data

/-! ### Identifier sanitizer (`datasource-name-utils`) -/

/-- `cleaned.replace(/_+/g, '_')`: collapse runs of `_` to a single `_`. -/
def collapseUnderscores : List Char → List Char
  | [] => []
  | [c] => [c]
  | c :: d :: rest =>
    if c = '_' && d = '_' then collapseUnderscores (d :: rest)
    else c :: collapseUnderscores (d :: rest)

/-- `cleaned.replace(/^_+|_+$/g, '')`: strip leading and trailing `_`. -/
def stripUnderscores (l : List Char) : List Char :=
  ((l.dropWhile (· = '_')).reverse.dropWhile (· = '_')).reverse

/-- `/^[a-zA-Z]/.test(cleaned)` (false on the empty string). -/
def startsWithLetter : List Char → Bool
  | [] => false
  | c :: _ => isAsciiLetter c

/--
`sanitizeDatabaseName` from `datasource-name-utils`: trim, replace every
character outside `[a-zA-Z0-9_]` with `_`, collapse runs of `_`, strip
leading/trailing `_`, prepend `db_` unless the result starts with a
letter, lowercase, and reject empty inputs/outputs.
-/
def sanitizeDatabaseName (name : String) : Except String String :=
  if name = "" then .error "Datasource name must be a non-empty string"
  else
    let trimmed := trimString name
    if trimmed = "" then .error "Datasource name cannot be empty"
    else
      let replaced := trimmed.data.map (fun c => if isWordChar c then c else '_')
      let collapsed := collapseUnderscores replaced
      let stripped := stripUnderscores collapsed
      let prefixed :=
        if startsWithLetter stripped then stripped else 'd' :: 'b' :: '_' :: stripped
      let lowered := prefixed.map toLowerChar
      if lowered = [] then
        .error "Datasource name resulted in empty identifier after sanitization"
      else .ok (String.mk lowered)

/-- The spec's output shape `^[a-z][a-z0-9_]*$`. -/
def identOk (s : String) : Bool :=
  match s.data with
  | [] => false
  | c :: rest => isLowerAlpha c && rest.all (fun d => isLowerAlpha d || isDigit09 d || d = '_')

/-! ### Provider registry (`provider-registry.ts`) -/

inductive DuckDBForeignType
  | POSTGRES
  | MYSQL
  | SQLITE
deriving DecidableEq, Repr

/-- ASCII `toLowerCase` on a whole string (provider ids are ASCII). -/
def toLowerString (s : String) : String :=
  String.mk (s.data.map toLowerChar)

/-- JS string truthiness for an optional config field: absent or `''` is falsy. -/
def jsTruthy : Option String → Bool
  | none => false
  | some s => !(s == "")

/-- `config.x || dflt` on string fields. -/
def optStr : Option String → String → String
  | some s, d => if s = "" then d else s
  | none, d => d

structure DsConfig where
  connectionUrl : Option String
  host : Option String
  port : Option Nat
  user : Option String
  password : Option String
  database : Option String
  path : Option String
deriving DecidableEq, Repr

/-- A datasource record as supplied by the repository (`findById`). -/
structure DsRecord where
  id : String
  name : String
  datasource_provider : String
  config : DsConfig
deriving DecidableEq, Repr

/--
`PROVIDER_PATTERNS` matching: `/^postgresql(-.*)?$/i`, `/^mysql$/i`,
`/^sqlite$/i`, `/^duckdb$/i` on the lowercased provider id, yielding the
triple (duckdbType, requiresExtension, extensionName).
-/
def providerPattern (providerId : String) :
    Option (DuckDBForeignType × Bool × Option String) :=
  let p := toLowerString providerId
  if p = "postgresql" || "postgresql-".data.isPrefixOf p.data then
    some (.POSTGRES, true, some "postgres")
  else if p = "mysql" then some (.MYSQL, true, some "mysql")
  else if p = "sqlite" then some (.SQLITE, false, none)
  else if p = "duckdb" then some (.SQLITE, false, none)
  else none

/-! #### The WHATWG-URL branch of the Postgres builder -/

/-- Pre-query part and query parameters of a parsed URL; the part before
`?` is kept opaque since the builder only edits the query. -/
structure URLModel where
  base : String
  params : List (String × String)
deriving DecidableEq, Repr

/-- `s.split(sep)` on character lists (empty pieces kept). -/
def splitList (sep : Char) : List Char → List (List Char)
  | [] => [[]]
  | c :: rest =>
    let r := splitList sep rest
    if c = sep then [] :: r
    else
      match r with
      | [] => [[c]]
      | h :: t => (c :: h) :: t

/-- One `key=value` query piece (piece without `=` gets an empty value;
empty pieces are ignored, as `URLSearchParams` does). -/
def parseParam (piece : List Char) : Option (String × String) :=
  if piece = [] then none
  else
    let key := piece.takeWhile (· ≠ '=')
    let rest := piece.dropWhile (· ≠ '=')
    match rest with
    | [] => some (String.mk piece, "")
    | _ :: v => some (String.mk key, String.mk v)

def parseQueryParams (q : List Char) : List (String × String) :=
  (splitList '&' q).filterMap parseParam

def schemeCharOk (c : Char) : Bool :=
  isAsciiLetter c || isDigit09 c || c = '+' || c = '-' || c = '.'

/-- A WHATWG URL scheme: a letter, then letters/digits/`+`/`-`/`.`,
then `:`. -/
def hasScheme (l : List Char) : Bool :=
  let scheme := l.takeWhile (· ≠ ':')
  let rest := l.dropWhile (· ≠ ':')
  (match scheme with
    | [] => false
    | c :: cs => isAsciiLetter c && cs.all schemeCharOk) && !rest.isEmpty

/-- `new URL(s)`: succeeds exactly when a valid scheme precedes the
query; the pre-`?` part is carried verbatim. -/
def parseURL (s : String) : Option URLModel :=
  let base := s.data.takeWhile (· ≠ '?')
  let q := s.data.dropWhile (· ≠ '?')
  if hasScheme base then some ⟨String.mk base, parseQueryParams (q.drop 1)⟩
  else none

def renderParam (p : String × String) : String :=
  p.1 ++ "=" ++ p.2

def renderQuery : List (String × String) → String
  | [] => ""
  | [p] => renderParam p
  | p :: rest => renderParam p ++ "&" ++ renderQuery rest

/-- `url.toString()` after query edits; the `?` disappears when no
parameters remain, as in the URL serializer. -/
def serializeURL (u : URLModel) : String :=
  if u.params.isEmpty then u.base else u.base ++ "?" ++ renderQuery u.params

/-- `url.searchParams.delete(name)` removes every pair with that key. -/
def deleteParam (u : URLModel) (key : String) : URLModel :=
  ⟨u.base, u.params.filter (fun p => p.1 ≠ key)⟩

/-! #### The textual-fallback branch of the Postgres builder -/

def cbPat : List Char := "channel_binding=".data

/-- `cleaned.replace(/[&?]channel_binding=[^&]*\x2fg, '')`. -/
def stripCB1 : List Char → List Char
  | [] => []
  | c :: rest =>
    if (c = '&' || c = '?') && cbPat.isPrefixOf rest then
      stripCB1 ((rest.drop cbPat.length).dropWhile (· ≠ '&'))
    else c :: stripCB1 rest
termination_by l => l.length
decreasing_by
  · have h1 : ((rest.drop cbPat.length).dropWhile (· ≠ '&')).length ≤
        (rest.drop cbPat.length).length := (List.dropWhile_sublist _).length_le
    have h2 : (rest.drop cbPat.length).length ≤ rest.length := by
      rw [List.length_drop]; omega
    simp only [List.length_cons]
    omega
  · simp only [List.length_cons]; omega

/-- `cleaned.replace(/channel_binding=[^&]*&?\x2fg, '')`; the greedy
`[^&]*` leaves either nothing or a `&`, which the optional `&?` then
consumes, hence the `.drop 1`. -/
def stripCB2 : List Char → List Char
  | [] => []
  | c :: rest =>
    if cbPat.isPrefixOf (c :: rest) then
      stripCB2 ((((c :: rest).drop cbPat.length).dropWhile (· ≠ '&')).drop 1)
    else c :: stripCB2 rest
termination_by l => l.length
decreasing_by
  · have h1 : ((((c :: rest).drop cbPat.length).dropWhile (· ≠ '&')).drop 1).length ≤
        (((c :: rest).drop cbPat.length).dropWhile (· ≠ '&')).length := by
      rw [List.length_drop]; omega
    have h2 : (((c :: rest).drop cbPat.length).dropWhile (· ≠ '&')).length ≤
        ((c :: rest).drop cbPat.length).length := (List.dropWhile_sublist _).length_le
    have h3 : ((c :: rest).drop cbPat.length).length ≤ rest.length := by
      rw [List.length_drop]
      simp only [List.length_cons]
      have : cbPat.length = 16 := by rfl
      omega
    simp only [List.length_cons]
    omega
  · simp only [List.length_cons]; omega

def sslDisablePat : List Char := "sslmode=disable".data

/-- `cleaned.replace(/sslmode=disable/g, 'sslmode=prefer')`. -/
def replaceSslDisable : List Char → List Char
  | [] => []
  | c :: rest =>
    if sslDisablePat.isPrefixOf (c :: rest) then
      "sslmode=prefer".data ++ replaceSslDisable ((c :: rest).drop sslDisablePat.length)
    else c :: replaceSslDisable rest
termination_by l => l.length
decreasing_by
  · have h1 : ((c :: rest).drop sslDisablePat.length).length ≤ rest.length := by
      rw [List.length_drop]
      simp only [List.length_cons]
      have : sslDisablePat.length = 15 := by rfl
      omega
    simp only [List.length_cons]
    omega
  · simp only [List.length_cons]; omega

/-- The catch-branch of the Postgres builder: textual parameter surgery
plus making sure an `sslmode` is present. -/
def pgFallbackClean (u : String) : String :=
  let c1 := stripCB1 u.data
  let c2 := stripCB2 c1
  let c3 := replaceSslDisable c2
  if isSubList "sslmode=".data c3 then String.mk c3
  else if isSubList "?".data c3 then String.mk (c3 ++ "&sslmode=prefer".data)
  else String.mk (c3 ++ "?sslmode=prefer".data)

/-- The `POSTGRES` case of `getConnectionStringForType`: require a truthy
`connectionUrl`; parse as URL and delete `channel_binding` when parsing
succeeds (keeping `sslmode` as-is), otherwise fall back to textual
surgery. -/
def pgBuildConnectionString (cfg : DsConfig) : Except String String :=
  if !jsTruthy cfg.connectionUrl then
    .error "PostgreSQL datasource requires connectionUrl in config"
  else
    match cfg.connectionUrl with
    | none => .error "PostgreSQL datasource requires connectionUrl in config"
    | some u =>
      match parseURL u with
      | some url => .ok (serializeURL (deleteParam url "channel_binding"))
      | none => .ok (pgFallbackClean u)

/-- The `MYSQL` case: pass a truthy `connectionUrl` through, else compose
the documented field defaults. -/
def mysqlBuildConnectionString (cfg : DsConfig) : Except String String :=
  if jsTruthy cfg.connectionUrl then
    match cfg.connectionUrl with
    | some u => .ok u
    | none => .error "unreachable"
  else
    let host := optStr cfg.host "localhost"
    let port := match cfg.port with
      | some p => if p = 0 then 3306 else p
      | none => 3306
    let user := optStr cfg.user "root"
    let password := optStr cfg.password ""
    let database := optStr cfg.database ""
    .ok ("host=" ++ host ++ " port=" ++ toString port ++ " user=" ++ user ++
      " password=" ++ password ++ " database=" ++ database)

/-- The `SQLITE` case: first truthy of `path`, `database`,
`connectionUrl`. -/
def sqliteBuildConnectionString (cfg : DsConfig) : Except String String :=
  if jsTruthy cfg.path then
    match cfg.path with
    | some p => .ok p
    | none => .error "unreachable"
  else if jsTruthy cfg.database then
    match cfg.database with
    | some p => .ok p
    | none => .error "unreachable"
  else if jsTruthy cfg.connectionUrl then
    match cfg.connectionUrl with
    | some p => .ok p
    | none => .error "unreachable"
  else .error "SQLite/DuckDB datasource requires path, database, or connectionUrl in config"

def getConnectionStringForType : DuckDBForeignType → DsConfig → Except String String
  | .POSTGRES => pgBuildConnectionString
  | .MYSQL => mysqlBuildConnectionString
  | .SQLITE => sqliteBuildConnectionString

def getTablesQueryForType : DuckDBForeignType → String → String
  | .POSTGRES => fun n =>
      "\n        SELECT table_schema, table_name\n        FROM " ++ n ++
      ".information_schema.tables\n        WHERE table_schema NOT IN ('information_schema', 'pg_catalog')\n        AND table_type = 'BASE TABLE'\n        ORDER BY table_schema, table_name\n      "
  | .MYSQL => fun n =>
      "\n        SELECT table_schema, table_name\n        FROM " ++ n ++
      ".information_schema.tables\n        WHERE table_schema NOT IN ('information_schema', 'mysql', 'performance_schema', 'sys')\n        AND table_type = 'BASE TABLE'\n        ORDER BY table_schema, table_name\n      "
  | .SQLITE => fun n =>
      "\n        SELECT 'main' as table_schema, name as table_name\n        FROM " ++ n ++
      ".sqlite_master\n        WHERE type = 'table'\n        AND name NOT LIKE 'sqlite_%'\n        AND name NOT LIKE 'duckdb_%'\n        ORDER BY name\n      "

structure ProviderMapping where
  duckdbType : DuckDBForeignType
  getConnectionString : DsConfig → Except String String
  getTablesQuery : String → String
  requiresExtension : Bool
  extensionName : Option String

/-- `getProviderMapping`: pattern matching (the extension-discovery
fallback of the source returns null in every reachable path). -/
def getProviderMapping (providerId : String) : Option ProviderMapping :=
  match providerPattern providerId with
  | some (t, re, en) =>
    some ⟨t, getConnectionStringForType t, getTablesQueryForType t, re, en⟩
  | none => none

/-- `getSupportedProviders` with no extension SDK available: the three
base providers, sorted. -/
def getSupportedProviders : List String :=
  ["mysql", "postgresql", "sqlite"]

/-! ### Catalog-name derivations (`datasource-name-utils` vs `detachForeignDB`) -/

/-- JS `id.replace` of every dash with an underscore (global regex). -/
def replaceDashUnderscore (s : String) : String :=
  String.mk (s.data.map (fun x => if x = '-' then '_' else x))

/-- `getDatasourceDatabaseName`: the sanitized datasource *name*. -/
def getDatasourceDatabaseName (ds : DsRecord) : Except String String :=
  if ds.name = "" then .error "Datasource must have a name"
  else sanitizeDatabaseName ds.name

/-- The catalog name `detachForeignDB` detaches: derived from the
datasource *id* as `ds_` + id with `-` replaced by `_`. -/
def detachCatalogName (datasourceId : String) : String :=
  "ds_" ++ replaceDashUnderscore datasourceId

/-! ### System catalog filter (`system-schema-filter`) -/

/-- `DEFAULT_SYSTEM_SCHEMAS` keyed by lowercased provider. -/
def defaultSystemSchemas (provider : String) : List String :=
  if provider = "postgresql" || provider = "neon" || provider = "supabase" then
    ["information_schema", "pg_catalog", "pg_toast", "pg_temp", "pg_toast_temp",
     "supabase_migrations", "vault", "storage", "realtime", "graphql",
     "graphql_public", "auth", "extensions", "pgbouncer"]
  else if provider = "mysql" then
    ["information_schema", "mysql", "performance_schema", "sys"]
  else if provider = "clickhouse" then
    ["system", "information_schema", "INFORMATION_SCHEMA"]
  else if provider = "sqlite" then
    ["sqlite_master"]
  else []

/-- `getSystemSchemas`: the provider's default schemas, lowercased
(the extension lookup of the source never contributes). -/
def getSystemSchemas (datasourceProvider : String) : List String :=
  (defaultSystemSchemas (toLowerString datasourceProvider)).map toLowerString

/-- `isSystemTableName`: internal name-pattern heuristic. -/
def isSystemTableName (tableName : String) : Bool :=
  let name := toLowerString tableName
  "pg_".data.isPrefixOf name.data || "sqlite_".data.isPrefixOf name.data ||
    "duckdb_".data.isPrefixOf name.data || "_".data.isPrefixOf name.data ||
    isSubList "_migrations".data name.data || isSubList "_secrets".data name.data

/-! ### Foreign attachment procedure (`foreign-datasource-attach`) -/

/-- A row of the family-specific table-enumeration query. -/
structure TableRow where
  table_schema : String
  table_name : String
deriving DecidableEq, Repr

/-- Engine behavior during one `attachForeignDatasource` call: outcomes
of the INSTALL/LOAD, ATTACH, table-enumeration, per-table probe and
per-table DESCRIBE statements (`none`/`ok` = statement succeeded). -/
structure AttachEnv where
  extLoadError : Option String
  attachRunError : Option String
  tablesResult : Except String (List TableRow)
  probeError : String → String → Option String
  describeResult : String → String → Option (List (String × String))

structure AttachedTable where
  schema : String
  table : String
  path : String
  schemaDefinition : Option (List (String × String))
deriving DecidableEq, Repr

structure AttachResult where
  attachedDatabaseName : String
  tables : List AttachedTable
deriving DecidableEq, Repr

/-- The per-table body of the attachment loop: skip system schemas and
tables, skip tables whose probe fails (permission errors silently,
others with a warning), attach DESCRIBE metadata when available. -/
def processAttachedTable (provider dbName : String)
    (probeError : String → String → Option String)
    (describeResult : String → String → Option (List (String × String)))
    (t : TableRow) : Option AttachedTable :=
  let schemaName := if t.table_schema = "" then "main" else t.table_schema
  let tableName := t.table_name
  if (getSystemSchemas provider).contains (toLowerString schemaName) then none
  else if isSystemTableName tableName then none
  else
    match probeError schemaName tableName with
    | some _ => none
    | none =>
      some ⟨schemaName, tableName, dbName ++ "." ++ schemaName ++ "." ++ tableName,
        describeResult schemaName tableName⟩

/-- The try/catch around the ATTACH statement: an already-attached
error is treated as success, anything else rethrown. -/
def runAttachStatement (outcome : Option String) : Except String Unit :=
  match outcome with
  | some m =>
    if containsSub m "already attached" || containsSub m "already exists" then .ok ()
    else .error m
  | none => .ok ()

/--
`attachForeignDatasource`: resolve the provider mapping, derive the
catalog name from the sanitized datasource *name*, install/load the
extension when required, build the connection string (failures
propagate), run ATTACH treating already-attached as success, enumerate
and filter tables.
-/
def attachForeignDatasource (ds : DsRecord) (env : AttachEnv) :
    Except String AttachResult := do
  let provider := ds.datasource_provider
  let some mapping := getProviderMapping provider
    | throw ("Foreign database type not supported: " ++ provider ++
        ". Supported types: " ++ String.intercalate ", " getSupportedProviders)
  let attachedDatabaseName ← getDatasourceDatabaseName ds
  if mapping.requiresExtension && mapping.extensionName.isSome then
    match env.extLoadError with
    | some m => throw m
    | none => pure ()
  let _connectionString ← mapping.getConnectionString ds.config
  let _ ← runAttachStatement env.attachRunError
  let tables ← env.tablesResult
  pure ⟨attachedDatabaseName,
    tables.filterMap (processAttachedTable provider attachedDatabaseName
      env.probeError env.describeResult)⟩

/-! ### Reconciler (`syncDatasources` of `duckdb-instance-manager`) -/

/-- Session state the reconciler mutates: the `attachedDatasources` set
and the `viewRegistry` map, as insertion-ordered lists. -/
structure SessionState where
  attached : List String
  views : List (String × String)
deriving DecidableEq, Repr

structure SyncResult where
  attached : List String
  views : List (String × String)
  errors : List String
  warns : List String
deriving DecidableEq, Repr

/-- Environment of one `syncDatasources` call: the repository and the
engine outcomes of the statements the call may issue. `createView` is
modelled from the spec: `datasourceToDuckdb` (module
`datasource-to-duckdb`, not present under src/) materializes a
natively-ingestible datasource as a view and returns the produced view
name, or fails (section 6 of the spec). -/
structure SyncEnv where
  repo : String → Option DsRecord
  attachEnv : String → AttachEnv
  detachRunError : String → Option String
  dropViewError : String → Option String
  createView : String → Except String String

/-- Modelled from the spec: `loadDatasources` (module
`datasource-loader`, not present under src/) resolves each id through
the repository's `findById`, skipping ids that no longer resolve
(section 4.7 step 1 of the spec). -/
def loadDatasources (ids : List String) (repo : String → Option DsRecord) :
    List DsRecord :=
  ids.filterMap repo

/-- Whether a record is classified as a foreign database (its provider
resolves to an engine-family mapping) rather than DuckDB-native. -/
def isForeignDs (ds : DsRecord) : Bool :=
  (getProviderMapping ds.datasource_provider).isSome

/-- Modelled from the spec: `groupDatasourcesByType` (module
`datasource-loader`, not present under src/) partitions loaded records
into (duckdbNative, foreignDatabases) by provider-family classification
(sections 2 and 4.7 of the spec). -/
def groupDatasourcesByType (loaded : List DsRecord) :
    List DsRecord × List DsRecord :=
  (loaded.filter (fun ds => !isForeignDs ds), loaded.filter isForeignDs)

/-- `Array.from(new Set(list))`: deduplicate keeping first occurrences. -/
def dedupFirst (seen : List String) : List String → List String
  | [] => []
  | x :: rest =>
    if seen.contains x then dedupFirst seen rest
    else x :: dedupFirst (x :: seen) rest

/-- `detachForeignDB`: issue DETACH against the id-derived catalog name;
every error is caught, not-found flavors silently, others with a
warning. The call never throws. -/
def detachForeignDB (env : SyncEnv) (datasourceId : String) : List String :=
  match env.detachRunError datasourceId with
  | none => []
  | some m =>
    if containsSub m "not found" || containsSub m "does not exist" ||
        containsSub m "not attached" then []
    else ["[DuckDBInstanceManager] Failed to detach " ++
      detachCatalogName datasourceId ++ ": " ++ m]

/-- Loop 1 of `syncDatasources`: detach foreign datasources that are
attached but unchecked, removing them from the attachment set. -/
def detachUnchecked (env : SyncEnv) (checked : List String) :
    List DsRecord → List String → List String × List String
  | [], attached => (attached, [])
  | ds :: rest, attached =>
    if attached.contains ds.id && !checked.contains ds.id then
      let r := detachUnchecked env checked rest (attached.erase ds.id)
      (r.1, detachForeignDB env ds.id ++ r.2)
    else detachUnchecked env checked rest attached

/-- Loop 2 of `syncDatasources`: drop views of unchecked native ids; on
a failed DROP the registry entry is kept (the delete is skipped) and a
warning logged. -/
def dropUncheckedViews (env : SyncEnv) (checked : List String) :
    List (String × String) → List (String × String) × List String
  | [] => ([], [])
  | (dsId, viewName) :: rest =>
    let r := dropUncheckedViews env checked rest
    if !checked.contains dsId then
      match env.dropViewError viewName with
      | none => r
      | some m => ((dsId, viewName) :: r.1,
          ("[DuckDBInstanceManager] Failed to drop view " ++ viewName ++ ": " ++ m)
            :: r.2)
    else ((dsId, viewName) :: r.1, r.2)

/-- Loop 3 of `syncDatasources`: attach checked foreign datasources not
yet attached; a failure is logged via `console.error` and the id left
absent. -/
def attachChecked (env : SyncEnv) (checked : List String) :
    List DsRecord → List String → List String × List String
  | [], attached => (attached, [])
  | ds :: rest, attached =>
    if !attached.contains ds.id && checked.contains ds.id then
      match attachForeignDatasource ds (env.attachEnv ds.id) with
      | .ok _ => attachChecked env checked rest (attached ++ [ds.id])
      | .error m =>
        let r := attachChecked env checked rest attached
        (r.1, ("[DuckDBInstanceManager] Failed to attach datasource " ++ ds.id ++
          ": " ++ m) :: r.2)
    else attachChecked env checked rest attached

/-- Loop 4 of `syncDatasources`: create views for checked native
datasources not yet registered; same failure isolation. -/
def createCheckedViews (env : SyncEnv) (checked : List String) :
    List DsRecord → List (String × String) → List (String × String) × List String
  | [], views => (views, [])
  | ds :: rest, views =>
    if !(views.map Prod.fst).contains ds.id && checked.contains ds.id then
      match env.createView ds.id with
      | .ok viewName => createCheckedViews env checked rest (views ++ [(ds.id, viewName)])
      | .error m =>
        let r := createCheckedViews env checked rest views
        (r.1, ("[DuckDBInstanceManager] Failed to create view for datasource " ++
          ds.id ++ ": " ++ m) :: r.2)
    else createCheckedViews env checked rest views

/--
`syncDatasources`: load and classify the union of checked, attached and
registered ids, then detach / drop / attach / create with per-item
failure isolation. Returns the new session state with the error and
warning lines the call logged.
-/
def syncDatasources (st : SessionState) (checkedDatasourceIds : List String)
    (env : SyncEnv) : SyncResult :=
  let allIds := dedupFirst []
    (checkedDatasourceIds ++ st.attached ++ st.views.map Prod.fst)
  let loaded := loadDatasources allIds env.repo
  let grouped := groupDatasourcesByType loaded
  let duckdbNative := grouped.1
  let foreignDatabases := grouped.2
  let d := detachUnchecked env checkedDatasourceIds foreignDatabases st.attached
  let v := dropUncheckedViews env checkedDatasourceIds st.views
  let a := attachChecked env checkedDatasourceIds foreignDatabases d.1
  let c := createCheckedViews env checkedDatasourceIds duckdbNative v.1
  ⟨a.1, c.1, a.2 ++ c.2, d.2 ++ v.2⟩

/-! ### `deleteSheet` -/

structure DeleteSheetResult where
  deletedSheets : List String
  failedSheets : List (String × String)
  message : String
deriving DecidableEq, Repr

/--
`deleteSheet`: reject an absent or empty name list, then drop each sheet
independently, recording per-item success or failure. `dropTable`
is modelled from the spec: the drop operation of the missing
`view-registry` module, a per-name engine outcome (`none` = dropped).
-/
def deleteSheet (sheetNames : Option (List String))
    (dropTable : String → Option String) : Except String DeleteSheetResult :=
  match sheetNames with
  | none => .error "At least one sheet name is required"
  | some names =>
    if names.isEmpty then .error "At least one sheet name is required"
    else
      let deleted := names.filter (fun n => (dropTable n).isNone)
      let failed := names.filterMap (fun n => (dropTable n).map (fun m => (n, m)))
      let successCount := deleted.length
      let failCount := failed.length
      let message :=
        if successCount = names.length then
          "Successfully deleted " ++ toString successCount ++ " sheet(s): " ++
            String.intercalate ", " deleted
        else if 0 < successCount then
          "Deleted " ++ toString successCount ++ " sheet(s): " ++
            String.intercalate ", " deleted ++ ". Failed to delete " ++
            toString failCount ++ " sheet(s): " ++
            String.intercalate ", " (failed.map Prod.fst)
        else "Failed to delete all " ++ toString failCount ++ " sheet(s)"
      .ok ⟨deleted, failed, message⟩

/-! ### Connection pool (`getConnection` / `returnConnection`) -/

/-- Pool state of one session wrapper: the idle `connectionPool` (its
length; handles are interchangeable) and the `activeConnections`
counter, a JS number that `returnConnection` clamps at zero. -/
structure PoolState where
  pool : Nat
  active : Int
deriving DecidableEq, Repr

inductive PoolOp
  | acquire
  | release
deriving DecidableEq, Repr

/-- One sequential step: `getConnection` pops an idle connection, else
opens a new one while under the limit, else waits (no step is possible;
the source busy-retries). `returnConnection` pushes the handle back and
decrements, clamping at zero. -/
def poolStep (maxConnections : Nat) (s : PoolState) : PoolOp → Option PoolState
  | .acquire =>
    if 0 < s.pool then some ⟨s.pool - 1, s.active + 1⟩
    else if s.active < (maxConnections : Int) then some ⟨s.pool, s.active + 1⟩
    else none
  | .release =>
    let a := s.active - 1
    some ⟨s.pool + 1, if a < 0 then 0 else a⟩

/-- Sequential execution of a trace of pool operations. -/
def poolExec (maxConnections : Nat) (s : PoolState) : List PoolOp → Option PoolState
  | [] => some s
  | op :: rest =>
    match poolStep maxConnections s op with
    | some s1 => poolExec maxConnections s1 rest
    | none => none

def countAcquires (ops : List PoolOp) : Nat :=
  ops.countP (fun op => op = PoolOp.acquire)

def countReleases (ops : List PoolOp) : Nat :=
  ops.countP (fun op => op = PoolOp.release)

/-! ### Catalog lister (`listAvailableSheets`) -/

inductive SheetType
  | view
  | table
  | attached_table
deriving DecidableEq, Repr

inductive DsKind
  | native
  | foreign
deriving DecidableEq, Repr

/-- One entry of the returned sheet list. -/
structure SheetInfo where
  name : String
  displayName : Option String
  stype : SheetType
  datasourceId : Option String
  datasourceKind : Option DsKind
  datasourceProvider : Option String
  datasourceName : Option String
  database : Option String
  schema : Option String
  fullPath : Option String
deriving DecidableEq, Repr

/-- `extractDatasourceIdFromDbName`: reverse the `ds_<uuid with dashes
as underscores>` derivation; needs the `ds_` marker and at least five
underscore-separated pieces. -/
def extractDatasourceIdFromDbName (dbName : String) : Option String :=
  if !("ds_".data.isPrefixOf dbName.data) then none
  else
    let idPart := dbName.data.drop 3
    match splitList '_' idPart with
    | p0 :: p1 :: p2 :: p3 :: rest =>
      if rest.length ≥ 1 then
        some (String.mk (p0 ++ '-' :: p1 ++ '-' :: p2 ++ '-' :: p3 ++ '-' ::
          rest.flatten))
      else none
    | _ => none

/-- Environment of one `listAvailableSheets` call: the (optional)
repository, the per-view probe outcome, the catalog table list and the
`information_schema` type query for unqualified names. `allTables` is
modelled from the spec: `listAllTables` (module `view-registry`, not
present under src/) enumerates the table paths of the live catalog. -/
structure ListSheetsEnv where
  repo : Option (String → Option DsRecord)
  probeViewOk : String → Bool
  allTables : List String
  mainTableTypeRows : String → Option (List String)

def truthyName (ds : DsRecord) : Option String :=
  if ds.name = "" then none else some ds.name

def truthyProvider (ds : DsRecord) : Option String :=
  if ds.datasource_provider = "" then none else some ds.datasource_provider

/-- The datasource id a table path contributes to the lookup maps: the
raw first dot-segment when it carries the `ds_` marker. -/
def pathDsId (t : String) : Option String :=
  if t.data.contains '.' then
    let first := String.mk (t.data.takeWhile (· ≠ '.'))
    if "ds_".data.isPrefixOf first.data then extractDatasourceIdFromDbName first
    else none
  else none

/-- `datasourceNameMap` as a lookup: ids from the view registry, the
attachment set, or table paths, resolved through the repository, names
kept when truthy. -/
def nameMapLookup (st : SessionState) (env : ListSheetsEnv) (dsId : String) :
    Option String :=
  match env.repo with
  | none => none
  | some repo =>
    if (st.views.map Prod.fst).contains dsId || st.attached.contains dsId ||
        (env.allTables.filterMap pathDsId).contains dsId then
      (repo dsId).bind truthyName
    else none

/-- `datasourceProviderMap` as a lookup. -/
def providerMapLookup (st : SessionState) (env : ListSheetsEnv) (dsId : String) :
    Option String :=
  match env.repo with
  | none => none
  | some repo =>
    if (st.views.map Prod.fst).contains dsId || st.attached.contains dsId ||
        (env.allTables.filterMap pathDsId).contains dsId then
      (repo dsId).bind truthyProvider
    else none

/-- `datasourceTypeMap` as a lookup: view-registry ids are native,
attached ids foreign (set later, overriding), and path-derived ids that
did not already resolve to a truthy name are marked foreign by the
additional-load pass. -/
def kindLookup (st : SessionState) (env : ListSheetsEnv) (dsId : String) :
    Option DsKind :=
  match env.repo with
  | none => none
  | some repo =>
    let inViews := (st.views.map Prod.fst).contains dsId
    let inAttached := st.attached.contains dsId
    let named := ((repo dsId).bind truthyName).isSome && (inViews || inAttached)
    let fromPath := (env.allTables.filterMap pathDsId).contains dsId
    if fromPath && !named then some .foreign
    else if inAttached then some .foreign
    else if inViews then some .native
    else none

/-- First pass: every registry entry whose view still answers the probe
is emitted (classified `view`); stale entries are deleted from the
registry and not emitted. Returns (sheets, surviving registry). -/
def listViewsPass (st : SessionState) (env : ListSheetsEnv) :
    List (String × String) → List SheetInfo × List (String × String)
  | [] => ([], [])
  | (dsId, viewName) :: rest =>
    let r := listViewsPass st env rest
    if env.probeViewOk viewName then
      (⟨viewName, some ((nameMapLookup st env dsId).getD viewName), .view,
        some dsId, some .native, providerMapLookup st env dsId,
        nameMapLookup st env dsId, none, none, none⟩ :: r.1,
        (dsId, viewName) :: r.2)
    else r

/-- Second pass, one table path: skip names already emitted from the
registry; split qualified paths, reversing the catalog name to a
datasource id; classify unqualified names by a catalog query. -/
def tableSheet (st : SessionState) (env : ListSheetsEnv)
    (viewNames : List String) (t : String) : Option SheetInfo :=
  if viewNames.contains t then none
  else if t.data.contains '.' then
    match (splitList '.' t.data).filter (fun p => p ≠ []) with
    | p0 :: p1 :: p2 :: prest =>
      let database := String.mk p0
      let schema := String.mk p1
      let tableName := String.intercalate "." ((p2 :: prest).map String.mk)
      let dsId := extractDatasourceIdFromDbName database
      let displayName :=
        match dsId with
        | some i => (nameMapLookup st env i).getD database
        | none => database
      some ⟨tableName, some (displayName ++ "." ++ schema ++ "." ++ tableName),
        .attached_table, dsId, dsId.bind (kindLookup st env),
        dsId.bind (providerMapLookup st env),
        (if displayName ≠ database then some displayName else none),
        some database, some schema, some t⟩
    | [p0, p1] =>
      some ⟨String.mk p1, none, .attached_table, none, none, none, none, none,
        some (String.mk p0), some t⟩
    | _ =>
      some ⟨t, none, .view, none, none, none, none, none, none, none⟩
  else
    match env.mainTableTypeRows t with
    | some rows =>
      some ⟨t, none,
        (if rows.head? = some "VIEW" then .view else .table),
        none, none, none, none, none, none, none⟩
    | none =>
      some ⟨t, none, .view, none, none, none, none, none, none, none⟩

/--
`listAvailableSheets`: first pass over the view registry (self-healing
deletions), then the catalog tables minus names the surviving registry
already covers. Returns (sheets, new registry).
-/
def listAvailableSheets (st : SessionState) (env : ListSheetsEnv) :
    List SheetInfo × List (String × String) :=
  let p1 := listViewsPass st env st.views
  let viewNames := p1.2.map Prod.snd
  (p1.1 ++ env.allTables.filterMap (tableSheet st env viewNames), p1.2)

/-- The `(name, fullPath)` key of the no-duplicates property. -/
def sheetKey (s : SheetInfo) : String × Option String :=
  (s.name, s.fullPath)

/-! ### Lemmas about the sanitizer pipeline -/

theorem toNat_ofNat_valid (n : Nat) (h : n < 55296) : (Char.ofNat n).toNat = n := by
  have hv : n.isValidChar := Or.inl h
  rw [Char.ofNat, dif_pos hv]
  simp [Char.ofNatAux, Char.toNat, UInt32.toNat, BitVec.toNat_ofNatLt]

theorem char_eq_underscore_of_toNat (c : Char) (h : c.toNat = 95) : c = '_' := by
  have h1 := Char.ofNat_toNat c
  rw [h] at h1
  rw [← h1]

theorem collapseUnderscores_sublist (l : List Char) :
    List.Sublist (collapseUnderscores l) l := by
  match l with
  | [] => simp [collapseUnderscores]
  | [c] => simp [collapseUnderscores]
  | c :: d :: rest =>
    have ih := collapseUnderscores_sublist (d :: rest)
    by_cases h : c = '_' && d = '_'
    · simpa [collapseUnderscores, h] using ih.cons c
    · simpa [collapseUnderscores, h] using ih.cons₂ c

theorem stripUnderscores_sublist (l : List Char) :
    List.Sublist (stripUnderscores l) l := by
  unfold stripUnderscores
  have h1 : List.Sublist (l.dropWhile (· = '_')) l := List.dropWhile_sublist _
  have h2 : List.Sublist ((l.dropWhile (· = '_')).reverse.dropWhile (· = '_'))
      (l.dropWhile (· = '_')).reverse := List.dropWhile_sublist _
  have h3 := h2.reverse
  simp only [List.reverse_reverse] at h3
  exact h3.trans h1

theorem dropWhile_eq_cons_not (p : Char → Bool) (l : List Char) (c : Char)
    (rest : List Char) (h : l.dropWhile p = c :: rest) : p c = false := by
  induction l with
  | nil => cases h
  | cons x xs ih =>
    by_cases hx : p x
    · rw [List.dropWhile_cons, if_pos hx] at h
      exact ih h
    · rw [List.dropWhile_cons, if_neg hx] at h
      cases h
      simpa using hx

theorem stripUnderscores_head (l : List Char) (c : Char) (rest : List Char)
    (h : stripUnderscores l = c :: rest) : c ≠ '_' := by
  have hsuf : (l.dropWhile (· = '_')).reverse.dropWhile (· = '_') <:+
      (l.dropWhile (· = '_')).reverse := List.dropWhile_suffix _
  have hpre := List.reverse_prefix.mpr hsuf
  simp only [List.reverse_reverse] at hpre
  rw [show ((l.dropWhile (· = '_')).reverse.dropWhile (· = '_')).reverse =
      stripUnderscores l from rfl, h] at hpre
  obtain ⟨t, ht⟩ := hpre
  have hq : l.dropWhile (· = '_') = c :: (rest ++ t) := by
    rw [← ht]; rfl
  have := dropWhile_eq_cons_not (· = '_') l c (rest ++ t) hq
  simpa using this

theorem mem_replaced_isWordChar (l : List Char) (c : Char)
    (h : c ∈ l.map (fun c => if isWordChar c then c else '_')) : isWordChar c = true := by
  obtain ⟨d, _, hd⟩ := List.mem_map.mp h
  by_cases hw : isWordChar d
  · rw [if_pos hw] at hd; rw [← hd]; exact hw
  · rw [if_neg hw] at hd; rw [← hd]; decide

theorem toLowerChar_upper (c : Char) (h1 : 65 ≤ c.toNat) (h2 : c.toNat ≤ 90) :
    (toLowerChar c).toNat = c.toNat + 32 := by
  unfold toLowerChar
  rw [if_pos]
  · exact toNat_ofNat_valid _ (by omega)
  · simp [h1, h2]

theorem toLowerChar_other (c : Char) (h : ¬(65 ≤ c.toNat ∧ c.toNat ≤ 90)) :
    toLowerChar c = c := by
  unfold toLowerChar
  rw [if_neg]
  simp only [Bool.and_eq_true, decide_eq_true_eq]
  exact h

theorem toLowerChar_of_wordChar (c : Char) (h : isWordChar c = true) :
    (isLowerAlpha (toLowerChar c) || isDigit09 (toLowerChar c) ||
      toLowerChar c = '_') = true := by
  unfold isWordChar at h
  simp only [Bool.or_eq_true, Bool.and_eq_true, decide_eq_true_eq] at h
  by_cases hu : 65 ≤ c.toNat ∧ c.toNat ≤ 90
  · have ht := toLowerChar_upper c hu.1 hu.2
    have : isLowerAlpha (toLowerChar c) = true := by
      unfold isLowerAlpha
      rw [ht]
      simp only [Bool.and_eq_true, decide_eq_true_eq]
      omega
    simp [this]
  · have heq := toLowerChar_other c hu
    rw [heq]
    rcases h with ((h | h) | h) | h
    · have : isDigit09 c = true := by
        unfold isDigit09
        simp only [Bool.and_eq_true, decide_eq_true_eq]
        omega
      simp [this]
    · omega
    · have : isLowerAlpha c = true := by
        unfold isLowerAlpha
        simp only [Bool.and_eq_true, decide_eq_true_eq]
        omega
      simp [this]
    · have := char_eq_underscore_of_toNat c h
      simp [this]

theorem toLowerChar_of_letter (c : Char) (h : isAsciiLetter c = true) :
    isLowerAlpha (toLowerChar c) = true := by
  unfold isAsciiLetter at h
  simp only [Bool.or_eq_true, Bool.and_eq_true, decide_eq_true_eq] at h
  unfold isLowerAlpha
  by_cases hu : 65 ≤ c.toNat ∧ c.toNat ≤ 90
  · have ht := toLowerChar_upper c hu.1 hu.2
    rw [ht]
    simp only [Bool.and_eq_true, decide_eq_true_eq]
    omega
  · have heq := toLowerChar_other c hu
    rw [heq]
    simp only [Bool.and_eq_true, decide_eq_true_eq]
    omega

theorem prefixed_map_ne_nil (stripped : List Char) :
    (if startsWithLetter stripped then stripped
      else 'd' :: 'b' :: '_' :: stripped).map toLowerChar ≠ [] := by
  by_cases h : startsWithLetter stripped
  · rw [if_pos h]
    match stripped with
    | [] => simp [startsWithLetter] at h
    | c :: rest => simp
  · rw [if_neg h]
    simp

theorem sanitize_ok_of_trim_ne (name : String) (h : trimString name ≠ "") :
    ∃ r, sanitizeDatabaseName name = .ok r := by
  have hne : name ≠ "" := by
    intro he
    apply h
    rw [he]
    decide
  simp only [sanitizeDatabaseName, if_neg hne, if_neg h]
  rw [if_neg (prefixed_map_ne_nil _)]
  exact ⟨_, rfl⟩

theorem sanitize_identOk (name r : String)
    (h : sanitizeDatabaseName name = .ok r) : identOk r = true := by
  by_cases hne : name = ""
  · simp only [sanitizeDatabaseName, if_pos hne] at h
    cases h
  by_cases ht : trimString name = ""
  · simp only [sanitizeDatabaseName, if_neg hne, if_pos ht] at h
    cases h
  simp only [sanitizeDatabaseName, if_neg hne, if_neg ht] at h
  rw [if_neg (prefixed_map_ne_nil _)] at h
  set stripped := stripUnderscores (collapseUnderscores
    ((trimString name).data.map (fun c => if isWordChar c then c else '_'))) with hs
  have hword : ∀ c ∈ stripped, isWordChar c = true := by
    intro c hc
    have h1 : c ∈ collapseUnderscores
        ((trimString name).data.map (fun c => if isWordChar c then c else '_')) :=
      (stripUnderscores_sublist _).mem hc
    have h2 := (collapseUnderscores_sublist _).mem h1
    exact mem_replaced_isWordChar _ _ h2
  have hr : r = String.mk ((if startsWithLetter stripped then stripped
      else 'd' :: 'b' :: '_' :: stripped).map toLowerChar) := by
    cases h
    rfl
  have hpword : ∀ c ∈ (if startsWithLetter stripped then stripped
      else 'd' :: 'b' :: '_' :: stripped), isWordChar c = true := by
    intro c hc
    by_cases hsl : startsWithLetter stripped
    · rw [if_pos hsl] at hc
      exact hword c hc
    · rw [if_neg hsl] at hc
      rcases hc with _ | ⟨_, hc⟩
      · decide
      rcases hc with _ | ⟨_, hc⟩
      · decide
      rcases hc with _ | ⟨_, hc⟩
      · decide
      exact hword c hc
  match hpe : (if startsWithLetter stripped then stripped
      else 'd' :: 'b' :: '_' :: stripped) with
  | [] =>
    exfalso
    by_cases hsl : startsWithLetter stripped
    · rw [if_pos hsl] at hpe
      rw [hpe] at hsl
      simp [startsWithLetter] at hsl
    · rw [if_neg hsl] at hpe
      cases hpe
  | c :: rest =>
    have hhead : isAsciiLetter c = true := by
      by_cases hsl : startsWithLetter stripped
      · rw [if_pos hsl] at hpe
        rw [hpe] at hsl
        simpa [startsWithLetter] using hsl
      · rw [if_neg hsl] at hpe
        have : c = 'd' := by cases hpe; rfl
        rw [this]
        decide
    rw [hpe] at hr hpword
    rw [hr]
    simp only [identOk, List.map_cons]
    rw [Bool.and_eq_true]
    constructor
    · exact toLowerChar_of_letter c hhead
    · rw [List.all_eq_true]
      intro d hd
      obtain ⟨e, he, hde⟩ := List.mem_map.mp hd
      have hw : isWordChar e = true := hpword e (List.mem_cons_of_mem _ he)
      have := toLowerChar_of_wordChar e hw
      rw [hde] at this
      simpa using this


/-! ### Lemmas about the reconciler loops -/

theorem contains_true_iff (l : List String) (a : String) :
    l.contains a = true ↔ a ∈ l := by
  simp

theorem contains_false_iff (l : List String) (a : String) :
    l.contains a = false ↔ a ∉ l := by
  rw [← Bool.not_eq_true, contains_true_iff]

theorem detachUnchecked_keeps (env : SyncEnv) (checked : List String) :
    ∀ (f : List DsRecord) (a : List String) (dsId : String),
      dsId ∈ a → dsId ∈ checked → dsId ∈ (detachUnchecked env checked f a).1 := by
  intro f
  induction f with
  | nil => intro a dsId ha _; exact ha
  | cons ds rest ih =>
    intro a dsId ha hc
    simp only [detachUnchecked]
    by_cases hcond : (a.contains ds.id && !checked.contains ds.id) = true
    · rw [if_pos hcond]
      have hne : dsId ≠ ds.id := by
        intro he
        subst he
        have h2 := (Bool.and_eq_true _ _).mp hcond
        rw [Bool.not_eq_true', contains_false_iff] at h2
        exact h2.2 hc
      exact ih (a.erase ds.id) dsId ((List.mem_erase_of_ne hne).mpr ha) hc
    · rw [if_neg hcond]
      exact ih a dsId ha hc

theorem detachUnchecked_subset (env : SyncEnv) (checked : List String) :
    ∀ (f : List DsRecord) (a : List String) (dsId : String),
      dsId ∈ (detachUnchecked env checked f a).1 → dsId ∈ a := by
  intro f
  induction f with
  | nil => intro a dsId h; exact h
  | cons ds rest ih =>
    intro a dsId h
    simp only [detachUnchecked] at h
    by_cases hcond : (a.contains ds.id && !checked.contains ds.id) = true
    · rw [if_pos hcond] at h
      exact (List.erase_sublist _ _).mem (ih _ _ h)
    · rw [if_neg hcond] at h
      exact ih a dsId h

theorem detachUnchecked_removes (env : SyncEnv) (checked : List String) :
    ∀ (f : List DsRecord) (a : List String) (ds : DsRecord),
      a.Nodup → ds ∈ f → ds.id ∉ checked →
      ds.id ∉ (detachUnchecked env checked f a).1 := by
  intro f
  induction f with
  | nil => intro a ds _ hmem; cases hmem
  | cons ds0 rest ih =>
    intro a ds hnd hmem hnc
    simp only [detachUnchecked]
    rcases List.mem_cons.mp hmem with heq | hmem'
    · subst heq
      by_cases hin : ds.id ∈ a
      · rw [if_pos]
        · intro hcontra
          have := detachUnchecked_subset env checked rest (a.erase ds.id) ds.id hcontra
          exact (hnd.not_mem_erase) this
        · rw [Bool.and_eq_true, contains_true_iff, Bool.not_eq_true', contains_false_iff]
          exact ⟨hin, hnc⟩
      · by_cases hcond : (a.contains ds.id && !checked.contains ds.id) = true
        · rw [if_pos hcond]
          intro hcontra
          exact hin ((List.erase_sublist _ _).mem
            (detachUnchecked_subset env checked rest _ _ hcontra))
        · rw [if_neg hcond]
          intro hcontra
          exact hin (detachUnchecked_subset env checked rest a ds.id hcontra)
    · by_cases hcond : (a.contains ds0.id && !checked.contains ds0.id) = true
      · rw [if_pos hcond]
        exact ih (a.erase ds0.id) ds (hnd.erase ds0.id) hmem' hnc
      · rw [if_neg hcond]
        exact ih a ds hnd hmem' hnc

theorem attachChecked_mono (env : SyncEnv) (checked : List String) :
    ∀ (f : List DsRecord) (a : List String) (dsId : String),
      dsId ∈ a → dsId ∈ (attachChecked env checked f a).1 := by
  intro f
  induction f with
  | nil => intro a dsId h; exact h
  | cons ds rest ih =>
    intro a dsId h
    simp only [attachChecked]
    by_cases hcond : (!a.contains ds.id && checked.contains ds.id) = true
    · rw [if_pos hcond]
      cases hatt : attachForeignDatasource ds (env.attachEnv ds.id) with
      | ok r => exact ih _ _ (List.mem_append_left _ h)
      | error m => exact ih a dsId h
    · rw [if_neg hcond]
      exact ih a dsId h

theorem attachChecked_subset (env : SyncEnv) (checked : List String) :
    ∀ (f : List DsRecord) (a : List String) (dsId : String),
      dsId ∈ (attachChecked env checked f a).1 → dsId ∈ a ∨ dsId ∈ checked := by
  intro f
  induction f with
  | nil => intro a dsId h; exact Or.inl h
  | cons ds rest ih =>
    intro a dsId h
    simp only [attachChecked] at h
    by_cases hcond : (!a.contains ds.id && checked.contains ds.id) = true
    · rw [if_pos hcond] at h
      cases hatt : attachForeignDatasource ds (env.attachEnv ds.id) with
      | ok r =>
        rw [hatt] at h
        rcases ih _ _ h with hmem | hmem
        · rcases List.mem_append.mp hmem with h1 | h1
          · exact Or.inl h1
          · rcases List.mem_singleton.mp h1 with rfl
            exact Or.inr ((contains_true_iff _ _).mp ((Bool.and_eq_true _ _).mp hcond).2)
        · exact Or.inr hmem
      | error m =>
        rw [hatt] at h
        exact ih a dsId h
    · rw [if_neg hcond] at h
      exact ih a dsId h

theorem dropUncheckedViews_mem (env : SyncEnv) (checked : List String) :
    ∀ (vs : List (String × String)) (p : String × String),
      p ∈ (dropUncheckedViews env checked vs).1 →
      p ∈ vs ∧ (p.1 ∈ checked ∨ ∃ m, env.dropViewError p.2 = some m) := by
  intro vs
  induction vs with
  | nil => intro p h; cases h
  | cons q rest ih =>
    intro p h
    obtain ⟨dsId, viewName⟩ := q
    simp only [dropUncheckedViews] at h
    by_cases hc : (!checked.contains dsId) = true
    · rw [if_pos hc] at h
      cases hdrop : env.dropViewError viewName with
      | none =>
        rw [hdrop] at h
        have := ih p h
        exact ⟨List.mem_cons_of_mem _ this.1, this.2⟩
      | some m =>
        rw [hdrop] at h
        rcases List.mem_cons.mp h with rfl | h'
        · exact ⟨List.mem_cons_self _ _, Or.inr ⟨m, hdrop⟩⟩
        · have := ih p h'
          exact ⟨List.mem_cons_of_mem _ this.1, this.2⟩
    · rw [if_neg hc] at h
      rcases List.mem_cons.mp h with rfl | h'
      · rw [Bool.not_eq_true', Bool.not_eq_false, contains_true_iff] at hc
        exact ⟨List.mem_cons_self _ _, Or.inl hc⟩
      · have := ih p h'
        exact ⟨List.mem_cons_of_mem _ this.1, this.2⟩

theorem createCheckedViews_mem (env : SyncEnv) (checked : List String) :
    ∀ (f : List DsRecord) (vs : List (String × String)) (p : String × String),
      p ∈ (createCheckedViews env checked f vs).1 → p ∈ vs ∨ p.1 ∈ checked := by
  intro f
  induction f with
  | nil => intro vs p h; exact Or.inl h
  | cons ds rest ih =>
    intro vs p h
    simp only [createCheckedViews] at h
    by_cases hcond : (!(vs.map Prod.fst).contains ds.id && checked.contains ds.id) = true
    · rw [if_pos hcond] at h
      cases hcv : env.createView ds.id with
      | ok viewName =>
        rw [hcv] at h
        rcases ih _ p h with hmem | hmem
        · rcases List.mem_append.mp hmem with h1 | h1
          · exact Or.inl h1
          · rcases List.mem_singleton.mp h1 with rfl
            exact Or.inr ((contains_true_iff _ _).mp ((Bool.and_eq_true _ _).mp hcond).2)
        · exact Or.inr hmem
      | error m =>
        rw [hcv] at h
        exact ih vs p h
    · rw [if_neg hcond] at h
      exact ih vs p h

theorem mem_dedupFirst : ∀ (seen l : List String) (x : String),
    x ∈ dedupFirst seen l ↔ (x ∈ l ∧ x ∉ seen) := by
  intro seen l
  induction l generalizing seen with
  | nil => intro x; simp [dedupFirst]
  | cons y rest ih =>
    intro x
    simp only [dedupFirst]
    by_cases hy : seen.contains y = true
    · rw [if_pos hy]
      rw [ih seen x]
      constructor
      · rintro ⟨h1, h2⟩
        exact ⟨List.mem_cons_of_mem _ h1, h2⟩
      · rintro ⟨h1, h2⟩
        rcases List.mem_cons.mp h1 with rfl | h1
        · exact absurd ((contains_true_iff _ _).mp hy) h2
        · exact ⟨h1, h2⟩
    · rw [if_neg hy]
      rw [Bool.not_eq_true, contains_false_iff] at hy
      constructor
      · intro hmem
        rcases List.mem_cons.mp hmem with rfl | hmem
        · exact ⟨List.mem_cons_self _ _, hy⟩
        · have := (ih (y :: seen) x).mp hmem
          exact ⟨List.mem_cons_of_mem _ this.1, fun hc => this.2 (List.mem_cons_of_mem _ hc)⟩
      · rintro ⟨h1, h2⟩
        rcases List.mem_cons.mp h1 with rfl | h1
        · exact List.mem_cons_self _ _
        · by_cases hxy : x = y
          · subst hxy; exact List.mem_cons_self _ _
          · exact List.mem_cons_of_mem _ ((ih (y :: seen) x).mpr
              ⟨h1, fun hc => (List.mem_cons.mp hc).elim hxy h2⟩)

/-- A record resolved from an id in the union participates in the
foreign group exactly when its provider classifies as foreign. -/
theorem mem_foreign_group (st : SessionState) (checked : List String)
    (env : SyncEnv) (id : String) (ds : DsRecord)
    (hid : id ∈ checked ++ st.attached ++ st.views.map Prod.fst)
    (hrepo : env.repo id = some ds) (hf : isForeignDs ds = true) :
    ds ∈ (groupDatasourcesByType (loadDatasources
      (dedupFirst [] (checked ++ st.attached ++ st.views.map Prod.fst))
      env.repo)).2 := by
  have hmem : id ∈ dedupFirst [] (checked ++ st.attached ++ st.views.map Prod.fst) :=
    (mem_dedupFirst _ _ _).mpr ⟨hid, by simp⟩
  have hload : ds ∈ loadDatasources
      (dedupFirst [] (checked ++ st.attached ++ st.views.map Prod.fst)) env.repo :=
    List.mem_filterMap.mpr ⟨id, hmem, hrepo⟩
  simp only [groupDatasourcesByType]
  exact List.mem_filter.mpr ⟨hload, hf⟩

/-! ### Pool lemmas -/

theorem poolExec_bounded (maxConnections : Nat) (ops : List PoolOp) :
    ∀ (s : PoolState), 0 ≤ s.active →
      s.active + (s.pool : Int) ≤ (maxConnections : Int) →
      (∀ n, n ≤ ops.length →
        (countReleases (ops.take n) : Int) ≤ s.active + (countAcquires (ops.take n) : Int)) →
      ∀ s1, poolExec maxConnections s ops = some s1 →
        0 ≤ s1.active ∧ s1.active + (s1.pool : Int) ≤ (maxConnections : Int) := by
  induction ops with
  | nil =>
    intro s h0 hsum _ s1 hex
    simp only [poolExec] at hex
    cases hex
    exact ⟨h0, hsum⟩
  | cons op rest ih =>
    intro s h0 hsum hcond s1 hex
    cases op with
    | acquire =>
      simp only [poolExec, poolStep] at hex
      by_cases hp : 0 < s.pool
      · rw [if_pos hp] at hex
        refine ih ⟨s.pool - 1, s.active + 1⟩ (by dsimp only; omega) ?_ ?_ s1 hex
        · dsimp only
          omega
        · intro n hn
          have h := hcond (n + 1) (by simp only [List.length_cons]; omega)
          dsimp only at h ⊢
          simp [countReleases, countAcquires, List.take_succ_cons, List.countP_cons] at h ⊢
          omega
      · rw [if_neg hp] at hex
        by_cases ha : s.active < (maxConnections : Int)
        · rw [if_pos ha] at hex
          have hp0 : s.pool = 0 := by omega
          refine ih ⟨s.pool, s.active + 1⟩ (by dsimp only; omega)
            (by dsimp only; omega) ?_ s1 hex
          intro n hn
          have h := hcond (n + 1) (by simp only [List.length_cons]; omega)
          dsimp only at h ⊢
          simp [countReleases, countAcquires, List.take_succ_cons, List.countP_cons] at h ⊢
          omega
        · rw [if_neg ha] at hex
          exact Option.noConfusion hex
    | release =>
      simp only [poolExec, poolStep] at hex
      have h1 : (1 : Int) ≤ s.active := by
        have h := hcond 1 (by simp only [List.length_cons]; omega)
        simp [countReleases, countAcquires] at h
        omega
      rw [if_neg (by omega)] at hex
      refine ih ⟨s.pool + 1, s.active - 1⟩ (by dsimp only; omega)
        (by dsimp only; push_cast; omega) ?_ s1 hex
      intro n hn
      have h := hcond (n + 1) (by simp only [List.length_cons]; omega)
      dsimp only at h ⊢
      simp [countReleases, countAcquires, List.take_succ_cons, List.countP_cons] at h ⊢
      omega

/-! ### Claim theorems -/

/-- C5: `sanitizeDatabaseName` is deterministic (equal inputs give equal
outputs), fails exactly when the trimmed input is empty, and every
successful output matches `^[a-z][a-z0-9_]*$`. -/
theorem claim_C5_sanitize (s t : String) (hst : s = t) :
    sanitizeDatabaseName s = sanitizeDatabaseName t ∧
    ((∃ r, sanitizeDatabaseName s = .ok r) ↔ trimString s ≠ "") ∧
    (∀ r, sanitizeDatabaseName s = .ok r → identOk r = true) := by
  subst hst
  refine ⟨rfl, ⟨?_, sanitize_ok_of_trim_ne s⟩, fun r => sanitize_identOk s r⟩
  rintro ⟨r, hr⟩ ht
  by_cases hne : s = ""
  · simp only [sanitizeDatabaseName, if_pos hne] at hr
    exact Except.noConfusion hr
  · simp only [sanitizeDatabaseName, if_neg hne, if_pos ht] at hr
    exact Except.noConfusion hr

theorem claim_C5_witness : identOk "my_db" = true :=
  (claim_C5_sanitize "My DB!" "My DB!" rfl).2.2 "my_db" (by decide)

/-- C3 (code bug): for the datasource with id `postgres-test-id` named
`Test PostgreSQL`, attachment executes its ATTACH under catalog
`test_postgresql` (sanitized *name*) while `detachForeignDB` issues its
DETACH against `ds_postgres_test_id` (derived from the *id*): the two
catalog names differ, so the DETACH can never target the attached
catalog. -/
theorem claim_C3_catalog_name_mismatch :
    detachCatalogName "postgres-test-id" = "ds_postgres_test_id" ∧
    getDatasourceDatabaseName ⟨"postgres-test-id", "Test PostgreSQL", "postgresql",
      ⟨some "postgresql://h/db", none, none, none, none, none, none⟩⟩ =
      .ok "test_postgresql" ∧
    "ds_postgres_test_id" ≠ "test_postgresql" := by
  exact ⟨by decide, by decide, by decide⟩

/-- C10: `deleteSheet` rejects an absent or empty name list with an
error, and otherwise returns normally with every requested name in
exactly one of `deletedSheets` and `failedSheets`. -/
theorem claim_C10_deleteSheet (sheetNames : Option (List String))
    (dropTable : String → Option String) :
    ((sheetNames = none ∨ sheetNames = some []) →
      deleteSheet sheetNames dropTable = .error "At least one sheet name is required") ∧
    (∀ names, sheetNames = some names → names ≠ [] →
      ∃ r, deleteSheet sheetNames dropTable = .ok r ∧
        ∀ n ∈ names,
          (n ∈ r.deletedSheets ∧ ¬ ∃ m, (n, m) ∈ r.failedSheets) ∨
          (n ∉ r.deletedSheets ∧ ∃ m, (n, m) ∈ r.failedSheets)) := by
  constructor
  · rintro (h | h) <;> subst h <;> rfl
  · intro names hn hne
    subst hn
    have hemp : ¬(names.isEmpty = true) := by
      intro h
      exact hne (List.isEmpty_iff.mp h)
    simp only [deleteSheet]
    rw [if_neg hemp]
    refine ⟨_, rfl, ?_⟩
    intro n hn
    cases hdt : dropTable n with
    | none =>
      left
      constructor
      · exact List.mem_filter.mpr ⟨hn, by simp [hdt]⟩
      · rintro ⟨m, hm⟩
        obtain ⟨x, _, hfx⟩ := List.mem_filterMap.mp hm
        cases hdx : dropTable x with
        | none => rw [hdx] at hfx; exact Option.noConfusion hfx
        | some y =>
          rw [hdx] at hfx
          simp only [Option.map_some'] at hfx
          have hx : x = n := congrArg Prod.fst (Option.some.inj hfx)
          rw [hx, hdt] at hdx
          exact Option.noConfusion hdx
    | some m =>
      right
      constructor
      · intro hmem
        have := (List.mem_filter.mp hmem).2
        rw [hdt] at this
        exact Bool.noConfusion this
      · exact ⟨m, List.mem_filterMap.mpr ⟨n, hn, by rw [hdt]; rfl⟩⟩

theorem claim_C10_witness :
    ∃ r, deleteSheet (some ["a", "b"])
        (fun n => if n = "b" then some "boom" else none) = .ok r ∧
      ∀ n ∈ ["a", "b"],
        (n ∈ r.deletedSheets ∧ ¬ ∃ m, (n, m) ∈ r.failedSheets) ∨
        (n ∉ r.deletedSheets ∧ ∃ m, (n, m) ∈ r.failedSheets) :=
  (claim_C10_deleteSheet (some ["a", "b"])
    (fun n => if n = "b" then some "boom" else none)).2 ["a", "b"] rfl (by decide)

/-- C6: every sequential trace of `getConnection`/`returnConnection`
steps in which each prefix returns at most as many handles as it
acquired keeps `0 ≤ activeConnections ≤ maxConnections`; an acquire
step succeeds only by popping an idle connection or under the limit and
increments the count; a release step pushes the handle back and
decrements clamped at zero. -/
theorem claim_C6_pool_invariant (maxConnections : Nat) (ops : List PoolOp)
    (hret : ∀ n, n ≤ ops.length →
      countReleases (ops.take n) ≤ countAcquires (ops.take n)) :
    (∀ s1, poolExec maxConnections ⟨0, 0⟩ ops = some s1 →
      0 ≤ s1.active ∧ s1.active ≤ (maxConnections : Int)) ∧
    (∀ s s', poolStep maxConnections s .acquire = some s' →
      (0 < s.pool ∨ s.active < (maxConnections : Int)) ∧ s'.active = s.active + 1) ∧
    (∀ s s', poolStep maxConnections s .release = some s' →
      s'.active = (if s.active - 1 < 0 then 0 else s.active - 1) ∧
        s'.pool = s.pool + 1) := by
  refine ⟨?_, ?_, ?_⟩
  · intro s1 hex
    have := poolExec_bounded maxConnections ops ⟨0, 0⟩ (by norm_num)
      (by norm_num) ?_ s1 hex
    · refine ⟨this.1, ?_⟩
      have h2 := this.2
      have : (0 : Int) ≤ (s1.pool : Int) := by positivity
      omega
    · intro n hn
      have := hret n hn
      dsimp only
      omega
  · intro s s' hstep
    simp only [poolStep] at hstep
    by_cases hp : 0 < s.pool
    · rw [if_pos hp] at hstep
      cases hstep
      exact ⟨Or.inl hp, rfl⟩
    · rw [if_neg hp] at hstep
      by_cases ha : s.active < (maxConnections : Int)
      · rw [if_pos ha] at hstep
        cases hstep
        exact ⟨Or.inr ha, rfl⟩
      · rw [if_neg ha] at hstep
        exact Option.noConfusion hstep
  · intro s s' hstep
    simp only [poolStep] at hstep
    cases hstep
    exact ⟨rfl, rfl⟩

theorem claim_C6_pool_witness :
    0 ≤ (PoolState.mk 0 2).active ∧ (PoolState.mk 0 2).active ≤ ((2 : Nat) : Int) :=
  (claim_C6_pool_invariant 2 [.acquire, .acquire, .release, .acquire]
    (by decide)).1 ⟨0, 2⟩ (by decide)

/-- C7: attaching an already-attached datasource does not raise — the
already-attached ATTACH error makes `attachForeignDatasource` behave
exactly as when the ATTACH succeeds — and a sync whose checked set
re-includes an already-attached id keeps that id in
`attachedDatasources`. -/
theorem claim_C7_attach_idempotent :
    (∀ (ds : DsRecord) (ext : Option String) (tr : Except String (List TableRow))
        (pe : String → String → Option String)
        (de : String → String → Option (List (String × String))) (m : String),
      (containsSub m "already attached" = true ∨ containsSub m "already exists" = true) →
      attachForeignDatasource ds ⟨ext, some m, tr, pe, de⟩ =
        attachForeignDatasource ds ⟨ext, none, tr, pe, de⟩) ∧
    (∀ (st : SessionState) (checked : List String) (env : SyncEnv) (dsId : String),
      dsId ∈ st.attached → dsId ∈ checked →
      dsId ∈ (syncDatasources st checked env).attached) := by
  constructor
  · intro ds ext tr pe de m hm
    have hrun : runAttachStatement (some m) = runAttachStatement none := by
      simp only [runAttachStatement]
      rcases hm with h | h
      · rw [if_pos (by rw [h]; simp)]
      · rw [if_pos (by rw [h]; simp)]
    simp only [attachForeignDatasource, hrun]
  · intro st checked env dsId hmem hchk
    simp only [syncDatasources]
    exact attachChecked_mono env checked _ _ dsId
      (detachUnchecked_keeps env checked _ st.attached dsId hmem hchk)

theorem claim_C7_witness :
    attachForeignDatasource
        ⟨"A", "My PG", "postgresql", ⟨some "postgresql://h/db", none, none, none, none, none, none⟩⟩
        ⟨none, some "Database with name my_pg already attached", .ok [],
          fun _ _ => none, fun _ _ => none⟩ =
      attachForeignDatasource
        ⟨"A", "My PG", "postgresql", ⟨some "postgresql://h/db", none, none, none, none, none, none⟩⟩
        ⟨none, none, .ok [], fun _ _ => none, fun _ _ => none⟩ ∧
    "A" ∈ (syncDatasources ⟨["A"], []⟩ ["A"]
      ⟨fun _ => none, fun _ => ⟨none, none, .ok [], fun _ _ => none, fun _ _ => none⟩,
        fun _ => none, fun _ => none, fun _ => .error "x"⟩).attached :=
  ⟨(claim_C7_attach_idempotent).1 _ none (.ok []) (fun _ _ => none) (fun _ _ => none)
      "Database with name my_pg already attached" (Or.inl (by decide)),
    (claim_C7_attach_idempotent).2 ⟨["A"], []⟩ ["A"] _ "A" (by decide) (by decide)⟩

/-! ### More attach-loop lemmas (for C4) -/

theorem attachChecked_not_mem (env : SyncEnv) (checked : List String) (A : String) :
    ∀ (f : List DsRecord) (a : List String), A ∉ a →
      (∀ ds ∈ f, ds.id = A →
        ∃ m, attachForeignDatasource ds (env.attachEnv ds.id) = .error m) →
      A ∉ (attachChecked env checked f a).1 := by
  intro f
  induction f with
  | nil => intro a ha _; exact ha
  | cons ds rest ih =>
    intro a ha hfail
    simp only [attachChecked]
    by_cases hcond : (!a.contains ds.id && checked.contains ds.id) = true
    · rw [if_pos hcond]
      cases hatt : attachForeignDatasource ds (env.attachEnv ds.id) with
      | ok r =>
        refine ih (a ++ [ds.id]) ?_ (fun d hd => hfail d (List.mem_cons_of_mem _ hd))
        intro hmem
        rcases List.mem_append.mp hmem with h1 | h1
        · exact ha h1
        · rcases List.mem_singleton.mp h1 with rfl
          obtain ⟨m, hm⟩ := hfail ds (List.mem_cons_self _ _) rfl
          rw [hatt] at hm
          exact Except.noConfusion hm
      | error m =>
        exact ih a ha (fun d hd => hfail d (List.mem_cons_of_mem _ hd))
    · rw [if_neg hcond]
      exact ih a ha (fun d hd => hfail d (List.mem_cons_of_mem _ hd))

theorem attachChecked_err_mem (env : SyncEnv) (checked : List String)
    (A em : String) :
    ∀ (f : List DsRecord) (a : List String), A ∉ a →
      (∀ ds ∈ f, ds.id = A →
        attachForeignDatasource ds (env.attachEnv ds.id) = .error em) →
      (∃ ds ∈ f, ds.id = A) → checked.contains A = true →
      ("[DuckDBInstanceManager] Failed to attach datasource " ++ A ++ ": " ++ em) ∈
        (attachChecked env checked f a).2 := by
  intro f
  induction f with
  | nil =>
    rintro a _ _ ⟨ds, hmem, _⟩ _
    cases hmem
  | cons ds0 rest ih =>
    rintro a ha hfail ⟨ds, hmem, hdsid⟩ hchk
    simp only [attachChecked]
    rcases List.mem_cons.mp hmem with heq | hmem'
    · subst heq
      rw [if_pos]
      · have herr := hfail ds (List.mem_cons_self _ _) hdsid
        rw [herr, hdsid]
        exact List.mem_cons_self _ _
      · rw [Bool.and_eq_true, Bool.not_eq_true', contains_false_iff]
        rw [hdsid]
        exact ⟨ha, hchk⟩
    · by_cases hcond : (!a.contains ds0.id && checked.contains ds0.id) = true
      · rw [if_pos hcond]
        cases hatt : attachForeignDatasource ds0 (env.attachEnv ds0.id) with
        | ok r =>
          refine ih (a ++ [ds0.id]) ?_
            (fun d hd => hfail d (List.mem_cons_of_mem _ hd)) ⟨ds, hmem', hdsid⟩ hchk
          intro hA
          rcases List.mem_append.mp hA with h1 | h1
          · exact ha h1
          · rcases List.mem_singleton.mp h1 with h2
            by_cases hid0 : ds0.id = A
            · have := hfail ds0 (List.mem_cons_self _ _) hid0
              rw [hatt] at this
              exact Except.noConfusion this
            · exact hid0 h2.symm
        | error m =>
          exact List.mem_cons_of_mem _
            (ih a ha (fun d hd => hfail d (List.mem_cons_of_mem _ hd))
              ⟨ds, hmem', hdsid⟩ hchk)
      · rw [if_neg hcond]
        exact ih a ha (fun d hd => hfail d (List.mem_cons_of_mem _ hd))
          ⟨ds, hmem', hdsid⟩ hchk

theorem attachChecked_ok_mem (env : SyncEnv) (checked : List String) :
    ∀ (f : List DsRecord) (a : List String) (ds : DsRecord), ds ∈ f →
      checked.contains ds.id = true →
      (∃ r, attachForeignDatasource ds (env.attachEnv ds.id) = .ok r) →
      ds.id ∈ (attachChecked env checked f a).1 := by
  intro f
  induction f with
  | nil => intro a ds hmem; cases hmem
  | cons ds0 rest ih =>
    rintro a ds hmem hchk ⟨r, hok⟩
    simp only [attachChecked]
    rcases List.mem_cons.mp hmem with heq | hmem'
    · subst heq
      by_cases hin : a.contains ds.id = true
      · have hmema : ds.id ∈ a := (contains_true_iff _ _).mp hin
        by_cases hcond : (!a.contains ds.id && checked.contains ds.id) = true
        · rw [if_pos hcond, hok]
          exact attachChecked_mono env checked rest _ _ (List.mem_append_left _ hmema)
        · rw [if_neg hcond]
          exact attachChecked_mono env checked rest _ _ hmema
      · have hf : a.contains ds.id = false := by
          rw [Bool.eq_false_iff]
          exact fun hc => hin hc
        rw [if_pos (by rw [hf, hchk]; rfl), hok]
        exact attachChecked_mono env checked rest _ _
          (List.mem_append_right _ (List.mem_singleton.mpr rfl))
    · by_cases hcond : (!a.contains ds0.id && checked.contains ds0.id) = true
      · rw [if_pos hcond]
        cases hatt : attachForeignDatasource ds0 (env.attachEnv ds0.id) with
        | ok r2 => exact ih _ ds hmem' hchk ⟨r, hok⟩
        | error m => exact ih a ds hmem' hchk ⟨r, hok⟩
      · rw [if_neg hcond]
        exact ih a ds hmem' hchk ⟨r, hok⟩

/-- The MissingConfig attach failure: a Postgres-family record whose
config lacks a truthy `connectionUrl` makes `attachForeignDatasource`
fail with the `requires connectionUrl` error. -/
theorem attach_missing_config (ds : DsRecord) (env : AttachEnv)
    (hprov : providerPattern ds.datasource_provider =
      some (.POSTGRES, true, some "postgres"))
    (hcfg : jsTruthy ds.config.connectionUrl = false)
    (hext : env.extLoadError = none)
    (hname : trimString ds.name ≠ "") :
    attachForeignDatasource ds env =
      .error "PostgreSQL datasource requires connectionUrl in config" := by
  have hmap : getProviderMapping ds.datasource_provider =
      some ⟨.POSTGRES, getConnectionStringForType .POSTGRES,
        getTablesQueryForType .POSTGRES, true, some "postgres"⟩ := by
    simp [getProviderMapping, hprov]
  have hname0 : ¬(ds.name = "") := by
    intro h
    apply hname
    rw [h]
    rfl
  obtain ⟨nm, hnm⟩ := sanitize_ok_of_trim_ne ds.name hname
  have hdb : getDatasourceDatabaseName ds = .ok nm := by
    simp only [getDatasourceDatabaseName, if_neg hname0]
    exact hnm
  have hcs : getConnectionStringForType DuckDBForeignType.POSTGRES ds.config =
      .error "PostgreSQL datasource requires connectionUrl in config" := by
    simp only [getConnectionStringForType, pgBuildConnectionString, hcfg]
    rfl
  simp only [attachForeignDatasource, hmap, hdb, hext, hcs]
  rfl

/-! ### C1 and C4 claim theorems -/

/-- Engine/repository environment of the C1 counterexample: nothing
resolves, and the DROP VIEW of the stale view fails with an IO error. -/
def syncEnvC1 : SyncEnv :=
  ⟨fun _ => none,
   fun _ => ⟨none, none, .ok [], fun _ _ => none, fun _ _ => none⟩,
   fun _ => none, fun _ => some "IO Error: disk", fun _ => .error "no ingest"⟩

/-- C1 is false as stated: with `viewRegistry = {A ↦ v}` and
`checked = []`, a failing `DROP VIEW v` leaves the entry registered, so
`attachedDatasources ∪ viewRegistry.keys ⊆ checked` fails after sync. -/
theorem claim_C1_counterexample :
    ¬ (∀ id ∈ (syncDatasources ⟨[], [("A", "v")]⟩ [] syncEnvC1).attached ++
        (syncDatasources ⟨[], [("A", "v")]⟩ [] syncEnvC1).views.map Prod.fst,
        id ∈ ([] : List String)) := by
  decide

/-- C1 amended: after `syncDatasources`, the attachment set united with
the view-registry keys is contained in the checked set, provided every
attached-but-unchecked id still resolves through the repository to a
foreign-classified record and every unchecked registered view's DROP
succeeds (on a DROP failure the entry is kept; an unchecked attached id
whose record no longer resolves stays attached). -/
theorem claim_C1_amended (st : SessionState) (checked : List String) (env : SyncEnv)
    (hnd : st.attached.Nodup)
    (hresolve : ∀ id ∈ st.attached, id ∉ checked →
      ∃ ds, env.repo id = some ds ∧ ds.id = id ∧ isForeignDs ds = true)
    (hdrop : ∀ p ∈ st.views, p.1 ∉ checked → env.dropViewError p.2 = none) :
    (∀ id ∈ (syncDatasources st checked env).attached, id ∈ checked) ∧
    (∀ p ∈ (syncDatasources st checked env).views, p.1 ∈ checked) := by
  constructor
  · intro id hid
    simp only [syncDatasources] at hid
    rcases attachChecked_subset env checked _ _ id hid with h1 | h1
    · by_contra hnc
      have hatt : id ∈ st.attached := detachUnchecked_subset env checked _ _ id h1
      obtain ⟨ds, hrepo, hdsid, hf⟩ := hresolve id hatt hnc
      have hmemf := mem_foreign_group st checked env id ds
        (by simp [hatt]) hrepo hf
      have hrem := detachUnchecked_removes env checked _ st.attached ds hnd hmemf
        (by rw [hdsid]; exact hnc)
      rw [hdsid] at hrem
      exact hrem h1
    · exact h1
  · intro p hp
    simp only [syncDatasources] at hp
    rcases createCheckedViews_mem env checked _ _ p hp with h1 | h1
    · have h2 := dropUncheckedViews_mem env checked st.views p h1
      rcases h2.2 with hc | ⟨m, hm⟩
      · exact hc
      · by_contra hnc
        rw [hdrop p h2.1 hnc] at hm
        exact Option.noConfusion hm
    · exact h1

/-- Environment of the C1 amended witness: id `A` resolves to a
Postgres record and the DROP of view `w` succeeds. -/
def syncEnvC1W : SyncEnv :=
  ⟨fun i => if i = "A" then
      some ⟨"A", "My PG", "postgresql",
        ⟨some "postgresql://h/db", none, none, none, none, none, none⟩⟩
    else none,
   fun _ => ⟨none, none, .ok [], fun _ _ => none, fun _ _ => none⟩,
   fun _ => none, fun _ => none, fun _ => .error "no ingest"⟩

theorem claim_C1_witness :
    (∀ id ∈ (syncDatasources ⟨["A"], [("B", "w")]⟩ ["C"] syncEnvC1W).attached,
      id ∈ ["C"]) ∧
    (∀ p ∈ (syncDatasources ⟨["A"], [("B", "w")]⟩ ["C"] syncEnvC1W).views,
      p.1 ∈ ["C"]) :=
  claim_C1_amended ⟨["A"], [("B", "w")]⟩ ["C"] syncEnvC1W (by decide)
    (by
      intro id hid hnc
      rcases List.mem_singleton.mp hid with rfl
      exact ⟨⟨"A", "My PG", "postgresql",
        ⟨some "postgresql://h/db", none, none, none, none, none, none⟩⟩,
        by decide, by decide, by decide⟩)
    (by
      intro p hp hnc
      rcases List.mem_singleton.mp hp with rfl
      decide)

/-- Environment of the C4 counterexample: `A` is a Postgres datasource
whose config has no connection string. -/
def syncEnvC4 : SyncEnv :=
  ⟨fun i => if i = "A" then
      some ⟨"A", "My PG", "postgresql", ⟨none, none, none, none, none, none, none⟩⟩
    else none,
   fun _ => ⟨none, none, .ok [], fun _ _ => none, fun _ _ => none⟩,
   fun _ => none, fun _ => none, fun _ => .error "no ingest"⟩

/-- C4 is false as stated: the MissingConfig failure of a checked
foreign datasource IS logged as an error by sync's catch handler
(`console.error`), contradicting "not logged as an error". -/
theorem claim_C4_counterexample :
    (syncDatasources ⟨[], []⟩ ["A"] syncEnvC4).errors =
      ["[DuckDBInstanceManager] Failed to attach datasource A: PostgreSQL datasource requires connectionUrl in config"] ∧
    (syncDatasources ⟨[], []⟩ ["A"] syncEnvC4).errors ≠ [] ∧
    (syncDatasources ⟨[], []⟩ ["A"] syncEnvC4).attached = [] := by
  refine ⟨by decide, by decide, by decide⟩

/-- C4 amended: sync catches the MissingConfig failure of a checked
foreign datasource — no exception escapes and the id is left
unattached — but logs it through its generic per-datasource
`console.error` handler (the silent-skip path exists only in
`attachForeignDatasourceToConnection`, which sync does not call), and
processing of the remaining datasources continues: any other checked
foreign record whose attach succeeds ends up attached. -/
theorem claim_C4_amended (st : SessionState) (checked : List String) (env : SyncEnv)
    (A : String) (dsA : DsRecord)
    (hwf : ∀ i ds, env.repo i = some ds → ds.id = i)
    (hA : env.repo A = some dsA)
    (hprov : providerPattern dsA.datasource_provider =
      some (.POSTGRES, true, some "postgres"))
    (hcfg : jsTruthy dsA.config.connectionUrl = false)
    (hext : (env.attachEnv A).extLoadError = none)
    (hname : trimString dsA.name ≠ "")
    (hchk : A ∈ checked) (hnatt : A ∉ st.attached) :
    A ∉ (syncDatasources st checked env).attached ∧
    ("[DuckDBInstanceManager] Failed to attach datasource " ++ A ++ ": " ++
      "PostgreSQL datasource requires connectionUrl in config") ∈
      (syncDatasources st checked env).errors ∧
    (∀ B dsB, env.repo B = some dsB → B ∈ checked → isForeignDs dsB = true →
      (∃ r, attachForeignDatasource dsB (env.attachEnv B) = .ok r) →
      B ∈ (syncDatasources st checked env).attached) := by
  have hidA : dsA.id = A := hwf A dsA hA
  have hfailA : ∀ ds, ds.id = A → env.repo A = some ds →
      attachForeignDatasource ds (env.attachEnv ds.id) =
        .error "PostgreSQL datasource requires connectionUrl in config" := by
    intro ds hds hrepo
    rw [hA] at hrepo
    cases hrepo
    rw [hds]
    exact attach_missing_config dsA (env.attachEnv A) hprov hcfg hext hname
  have hfmem : ∀ ds ∈ (groupDatasourcesByType (loadDatasources
      (dedupFirst [] (checked ++ st.attached ++ st.views.map Prod.fst))
      env.repo)).2, ds.id = A → env.repo A = some ds := by
    intro ds hmem hds
    simp only [groupDatasourcesByType] at hmem
    have hload := (List.mem_filter.mp hmem).1
    obtain ⟨i, _, hrepo⟩ := List.mem_filterMap.mp hload
    have := hwf i ds hrepo
    rw [← this, hds] at hrepo
    exact hrepo
  have hforeign : isForeignDs dsA = true := by
    simp only [isForeignDs, getProviderMapping, hprov]
    rfl
  have hnatt1 : A ∉ (detachUnchecked env checked (groupDatasourcesByType
      (loadDatasources (dedupFirst [] (checked ++ st.attached ++
        st.views.map Prod.fst)) env.repo)).2 st.attached).1 :=
    fun hc => hnatt (detachUnchecked_subset env checked _ _ A hc)
  refine ⟨?_, ?_, ?_⟩
  · simp only [syncDatasources]
    exact attachChecked_not_mem env checked A _ _ hnatt1
      (fun ds hd hds => ⟨_, hfailA ds hds (hfmem ds hd hds)⟩)
  · simp only [syncDatasources]
    apply List.mem_append_left
    exact attachChecked_err_mem env checked A _ _ _ hnatt1
      (fun ds hd hds => hfailA ds hds (hfmem ds hd hds))
      ⟨dsA, mem_foreign_group st checked env A dsA (by simp [hchk]) hA hforeign,
        hidA⟩
      ((contains_true_iff _ _).mpr hchk)
  · intro B dsB hB hBchk hBf ⟨r, hok⟩
    have hidB : dsB.id = B := hwf B dsB hB
    simp only [syncDatasources]
    have hmemB := mem_foreign_group st checked env B dsB (by simp [hBchk]) hB hBf
    rw [← hidB]
    refine attachChecked_ok_mem env checked _ _ dsB hmemB ?_ ?_
    · rw [hidB]
      exact (contains_true_iff _ _).mpr hBchk
    · rw [hidB]
      exact ⟨r, hok⟩

/-- Environment of the C4 amended witness: `A` misses its connection
string, `B` is a well-configured Postgres datasource. -/
def syncEnvC4W : SyncEnv :=
  ⟨fun i => if i = "A" then
      some ⟨"A", "My PG", "postgresql", ⟨none, none, none, none, none, none, none⟩⟩
    else if i = "B" then
      some ⟨"B", "Other PG", "postgresql",
        ⟨some "postgresql://h/db", none, none, none, none, none, none⟩⟩
    else none,
   fun _ => ⟨none, none, .ok [], fun _ _ => none, fun _ _ => none⟩,
   fun _ => none, fun _ => none, fun _ => .error "no ingest"⟩

theorem claim_C4_witness :
    "A" ∉ (syncDatasources ⟨[], []⟩ ["A", "B"] syncEnvC4W).attached ∧
    ("[DuckDBInstanceManager] Failed to attach datasource " ++ "A" ++ ": " ++
      "PostgreSQL datasource requires connectionUrl in config") ∈
      (syncDatasources ⟨[], []⟩ ["A", "B"] syncEnvC4W).errors ∧
    (∀ B dsB, syncEnvC4W.repo B = some dsB → B ∈ ["A", "B"] →
      isForeignDs dsB = true →
      (∃ r, attachForeignDatasource dsB (syncEnvC4W.attachEnv B) = .ok r) →
      B ∈ (syncDatasources ⟨[], []⟩ ["A", "B"] syncEnvC4W).attached) :=
  claim_C4_amended ⟨[], []⟩ ["A", "B"] syncEnvC4W "A"
    ⟨"A", "My PG", "postgresql", ⟨none, none, none, none, none, none, none⟩⟩
    (by
      intro i ds h
      simp only [syncEnvC4W] at h
      split at h
      · next hc =>
        cases h
        rw [hc]
      · next =>
        split at h
        · next hc2 =>
          cases h
          rw [hc2]
        · next => exact Option.noConfusion h)
    (by decide) (by decide) (by decide) (by decide) (by decide) (by decide)
    (by decide)

/-! ### Catalog-lister lemmas (for C8, C9) -/

/-- The sheet the first pass emits for a surviving registry entry. -/
def viewSheetOf (st : SessionState) (env : ListSheetsEnv)
    (p : String × String) : SheetInfo :=
  ⟨p.2, some ((nameMapLookup st env p.1).getD p.2), .view, some p.1, some .native,
    providerMapLookup st env p.1, nameMapLookup st env p.1, none, none, none⟩

theorem listViewsPass_kept (st : SessionState) (env : ListSheetsEnv) :
    ∀ l : List (String × String),
      (listViewsPass st env l).2 = l.filter (fun p => env.probeViewOk p.2) := by
  intro l
  induction l with
  | nil => rfl
  | cons q rest ih =>
    obtain ⟨dsId, viewName⟩ := q
    simp only [listViewsPass, List.filter_cons]
    by_cases hp : env.probeViewOk viewName = true
    · rw [if_pos hp]
      simp only [hp, if_pos]
      rw [ih]
    · rw [if_neg hp]
      have hp2 : env.probeViewOk (dsId, viewName).2 = false := by
        simp only []
        exact Bool.eq_false_iff.mpr hp
      rw [hp2]
      simp only [Bool.false_eq_true, if_false]
      exact ih

theorem listViewsPass_sheets (st : SessionState) (env : ListSheetsEnv) :
    ∀ l : List (String × String),
      (listViewsPass st env l).1 =
        (listViewsPass st env l).2.map (viewSheetOf st env) := by
  intro l
  induction l with
  | nil => rfl
  | cons q rest ih =>
    obtain ⟨dsId, viewName⟩ := q
    simp only [listViewsPass]
    by_cases hp : env.probeViewOk viewName = true
    · rw [if_pos hp]
      simp only [List.map_cons]
      rw [ih]
      rfl
    · rw [if_neg hp]
      exact ih

theorem nodup_keys_eq (l : List (String × String))
    (h : (l.map Prod.fst).Nodup) (a b c : String)
    (h1 : (a, b) ∈ l) (h2 : (a, c) ∈ l) : b = c := by
  induction l with
  | nil => cases h1
  | cons q rest ih =>
    obtain ⟨x, y⟩ := q
    simp only [List.map_cons, List.nodup_cons] at h
    rcases List.mem_cons.mp h1 with he1 | ht1
    · rcases List.mem_cons.mp h2 with he2 | ht2
      · cases he1; cases he2; rfl
      · exfalso
        apply h.1
        have hax : a = x := congrArg Prod.fst he1
        rw [← hax]
        exact List.mem_map.mpr ⟨(a, c), ht2, rfl⟩
    · rcases List.mem_cons.mp h2 with he2 | ht2
      · exfalso
        apply h.1
        have hax : a = x := congrArg Prod.fst he2
        rw [← hax]
        exact List.mem_map.mpr ⟨(a, b), ht1, rfl⟩
      · exact ih h.2 ht1 ht2

theorem tableSheet_datasourceId (st : SessionState) (env : ListSheetsEnv)
    (vn : List String) (t : String) (s : SheetInfo)
    (h : tableSheet st env vn t = some s) :
    s.datasourceId = none ∨
    ∃ p ∈ (splitList '.' t.data).filter (fun q => q ≠ []),
      s.datasourceId = extractDatasourceIdFromDbName (String.mk p) := by
  simp only [tableSheet] at h
  split at h
  · exact Option.noConfusion h
  · split at h
    · split at h
      · next p0 p1 p2 prest hparts =>
        cases h
        right
        exact ⟨p0, by rw [hparts]; exact List.mem_cons_self _ _, rfl⟩
      · next p0 p1 hparts =>
        cases h
        left
        rfl
      · next hparts =>
        cases h
        left
        rfl
    · split at h
      · cases h
        left
        rfl
      · cases h
        left
        rfl

theorem tableSheet_key (st : SessionState) (env : ListSheetsEnv)
    (vn : List String) (t : String) (s : SheetInfo)
    (h : tableSheet st env vn t = some s) :
    vn.contains t = false ∧
    (s.fullPath = some t ∨ (s.name = t ∧ s.fullPath = none)) := by
  simp only [tableSheet] at h
  split at h
  · exact Option.noConfusion h
  · next hc =>
    have hcf : vn.contains t = false := Bool.eq_false_iff.mpr hc
    refine ⟨hcf, ?_⟩
    split at h
    · split at h
      · next p0 p1 p2 prest hparts =>
        cases h
        left
        rfl
      · next p0 p1 hparts =>
        cases h
        left
        rfl
      · next hparts =>
        cases h
        right
        exact ⟨rfl, rfl⟩
    · split at h
      · cases h
        right
        exact ⟨rfl, rfl⟩
      · cases h
        right
        exact ⟨rfl, rfl⟩

/-! ### C8 and C9 claim theorems -/

/-- C8: a registry entry whose recorded view fails the trivial probe is
deleted from `viewRegistry` by `listAvailableSheets`, and the returned
sheet list has no entry for that datasource id (the hypotheses state
what a reachable session guarantees: registry keys are unique, and no
introspected catalog name reverses to a natively-registered id). -/
theorem claim_C8_self_healing (st : SessionState) (env : ListSheetsEnv)
    (dsId viewName : String)
    (hmem : (dsId, viewName) ∈ st.views)
    (hkeys : (st.views.map Prod.fst).Nodup)
    (hprobe : env.probeViewOk viewName = false)
    (hpath : ∀ t ∈ env.allTables,
      ∀ p ∈ (splitList '.' t.data).filter (fun q => q ≠ []),
        extractDatasourceIdFromDbName (String.mk p) ≠ some dsId) :
    dsId ∉ ((listAvailableSheets st env).2.map Prod.fst) ∧
    (∀ s ∈ (listAvailableSheets st env).1, s.datasourceId ≠ some dsId) := by
  have hkept : ∀ vn, (dsId, vn) ∈ (listViewsPass st env st.views).2 → False := by
    intro vn hk
    rw [listViewsPass_kept] at hk
    have h1 := List.mem_filter.mp hk
    have h2 : vn = viewName := nodup_keys_eq st.views hkeys dsId vn viewName h1.1 hmem
    rw [h2] at h1
    rw [hprobe] at h1
    exact Bool.noConfusion h1.2
  constructor
  · intro hc
    simp only [listAvailableSheets] at hc
    obtain ⟨⟨d, vn⟩, hmem2, heq⟩ := List.mem_map.mp hc
    simp only [] at heq
    subst heq
    exact hkept vn hmem2
  · intro s hs
    simp only [listAvailableSheets] at hs
    rcases List.mem_append.mp hs with h1 | h1
    · rw [listViewsPass_sheets] at h1
      obtain ⟨⟨d, vn⟩, hmem2, heq⟩ := List.mem_map.mp h1
      intro hc
      rw [← heq] at hc
      simp only [viewSheetOf, Option.some.injEq] at hc
      rw [hc] at hmem2
      exact hkept vn hmem2
    · obtain ⟨t, hmemt, hsome⟩ := List.mem_filterMap.mp h1
      rcases tableSheet_datasourceId st env _ t s hsome with hnone | ⟨p, hp, heq⟩
      · rw [hnone]
        exact fun hc => Option.noConfusion hc
      · rw [heq]
        exact hpath t hmemt p hp

/-- Environment of the C8 witness. -/
def listEnvC8 : ListSheetsEnv :=
  ⟨none, fun vnm => vnm ≠ "v", ["x.y.z", "plain"], fun _ => some ["VIEW"]⟩

theorem claim_C8_witness :
    "A" ∉ ((listAvailableSheets ⟨[], [("A", "v"), ("B", "w")]⟩ listEnvC8).2.map
      Prod.fst) ∧
    (∀ s ∈ (listAvailableSheets ⟨[], [("A", "v"), ("B", "w")]⟩ listEnvC8).1,
      s.datasourceId ≠ some "A") :=
  claim_C8_self_healing ⟨[], [("A", "v"), ("B", "w")]⟩ listEnvC8 "A" "v"
    (by decide) (by decide) (by decide) (by decide)

/-- Environment of the C9 counterexample. -/
def listEnvC9 : ListSheetsEnv :=
  ⟨none, fun _ => true, [], fun _ => none⟩

/-- C9 is false as stated: with two registry entries sharing the view
name `v` (the claim quantifies over every registry content), both probe
successfully and the sheet list carries the `(name, fullPath)` pair
`("v", none)` twice. -/
theorem claim_C9_counterexample :
    ¬ ((listAvailableSheets ⟨[], [("A", "v"), ("B", "v")]⟩ listEnvC9).1.map
      sheetKey).Nodup := by
  decide

/-- C9 amended: the sheet list contains no two entries with the same
`(name, fullPath)` pair provided the registry's view names are pairwise
distinct (the one-to-one registry invariant of the data model) and the
introspected table list is duplicate-free. -/
theorem claim_C9_amended (st : SessionState) (env : ListSheetsEnv)
    (hvals : (st.views.map Prod.snd).Nodup)
    (htabs : env.allTables.Nodup) :
    ((listAvailableSheets st env).1.map sheetKey).Nodup := by
  simp only [listAvailableSheets, List.map_append]
  have hkeptvals : (((listViewsPass st env st.views).2.map Prod.snd)).Nodup := by
    rw [listViewsPass_kept]
    exact ((List.filter_sublist _).map Prod.snd).nodup hvals
  refine List.nodup_append.mpr ⟨?_, ?_, ?_⟩
  · rw [listViewsPass_sheets, List.map_map]
    have h1 : (sheetKey ∘ viewSheetOf st env) =
        ((fun v => (v, (none : Option String))) ∘ Prod.snd) := by
      funext p
      rfl
    rw [h1, ← List.map_map]
    refine List.Nodup.map ?_ hkeptvals
    intro a b hab
    exact ((Prod.mk.injEq _ _ _ _).mp hab).1
  · rw [List.map_filterMap]
    refine List.Nodup.filterMap ?_ htabs
    intro t1 t2 key h1 h2
    simp only [Option.mem_def, Option.map_eq_some'] at h1 h2
    obtain ⟨s1, hs1, hk1⟩ := h1
    obtain ⟨s2, hs2, hk2⟩ := h2
    have k1 := tableSheet_key st env _ t1 s1 hs1
    have k2 := tableSheet_key st env _ t2 s2 hs2
    have heq : sheetKey s1 = sheetKey s2 := hk1.trans hk2.symm
    simp only [sheetKey, Prod.mk.injEq] at heq
    rcases k1.2 with hf1 | ⟨hn1, hf1⟩ <;> rcases k2.2 with hf2 | ⟨hn2, hf2⟩
    · rw [hf1, hf2] at heq
      exact Option.some.inj heq.2
    · rw [hf1, hf2] at heq
      exact absurd heq.2 (by simp)
    · rw [hf1, hf2] at heq
      exact absurd heq.2 (by simp)
    · rw [← hn1, ← hn2]
      exact heq.1
  · intro key hkey1 hkey2
    rw [listViewsPass_sheets, List.map_map] at hkey1
    obtain ⟨p, hpmem, hpeq⟩ := List.mem_map.mp hkey1
    have hkeyval : key = (p.2, (none : Option String)) := by
      rw [← hpeq]
      rfl
    rw [List.map_filterMap] at hkey2
    obtain ⟨t, htmem, hteq⟩ := List.mem_filterMap.mp hkey2
    simp only [Option.map_eq_some'] at hteq
    obtain ⟨s, hsome, hkeq⟩ := hteq
    have k := tableSheet_key st env _ t s hsome
    rcases k.2 with hf | ⟨hn, hf⟩
    · have : key.2 = some t := by
        rw [← hkeq]
        simp only [sheetKey]
        exact hf
      rw [hkeyval] at this
      exact Option.noConfusion this
    · have hkname : key.1 = t := by
        rw [← hkeq]
        simp only [sheetKey]
        exact hn
      have hpt : p.2 = t := by
        rw [hkeyval] at hkname
        exact hkname
      have hmemvn : t ∈ (listViewsPass st env st.views).2.map Prod.snd := by
        rw [← hpt]
        exact List.mem_map.mpr ⟨p, hpmem, rfl⟩
      rw [contains_false_iff] at k
      exact k.1 hmemvn

theorem claim_C9_witness :
    ((listAvailableSheets ⟨["F"], [("A", "v"), ("B", "w")]⟩ listEnvC8).1.map
      sheetKey).Nodup :=
  claim_C9_amended ⟨["F"], [("A", "v"), ("B", "w")]⟩ listEnvC8
    (by decide) (by decide)

/-! ### Postgres connection-string lemmas (for C2) -/

theorem isPrefixOf_append_self (l x : List Char) : l.isPrefixOf (l ++ x) = true := by
  rw [List.isPrefixOf_iff_prefix]
  exact List.prefix_append l x

theorem isPrefixOf_self (l : List Char) : l.isPrefixOf l = true := by
  have h := isPrefixOf_append_self l []
  rwa [List.append_nil] at h

theorem stripCB1_cons_match (c : Char) (rest : List Char)
    (h : ((c = '&' || c = '?') && cbPat.isPrefixOf rest) = true) :
    stripCB1 (c :: rest) =
      stripCB1 ((rest.drop cbPat.length).dropWhile (· ≠ '&')) := by
  rw [stripCB1, if_pos h]

theorem stripCB1_cons_skip (c : Char) (rest : List Char)
    (h : ((c = '&' || c = '?') && cbPat.isPrefixOf rest) = false) :
    stripCB1 (c :: rest) = c :: stripCB1 rest := by
  rw [stripCB1, if_neg (by rw [h]; exact Bool.false_ne_true)]

theorem stripCB2_cons_skip (c : Char) (rest : List Char)
    (h : cbPat.isPrefixOf (c :: rest) = false) :
    stripCB2 (c :: rest) = c :: stripCB2 rest := by
  rw [stripCB2, if_neg (by rw [h]; exact Bool.false_ne_true)]

theorem replaceSsl_cons_match (c : Char) (rest : List Char)
    (h : sslDisablePat.isPrefixOf (c :: rest) = true) :
    replaceSslDisable (c :: rest) =
      "sslmode=prefer".data ++ replaceSslDisable ((c :: rest).drop sslDisablePat.length) := by
  rw [replaceSslDisable, if_pos h]

theorem replaceSsl_cons_skip (c : Char) (rest : List Char)
    (h : sslDisablePat.isPrefixOf (c :: rest) = false) :
    replaceSslDisable (c :: rest) = c :: replaceSslDisable rest := by
  rw [replaceSslDisable, if_neg (by rw [h]; exact Bool.false_ne_true)]

theorem dropWhile_amp (v m : List Char) (hv : ∀ c ∈ v, c ≠ '&') :
    (v ++ '&' :: m).dropWhile (· ≠ '&') = '&' :: m := by
  induction v with
  | nil => simp [List.dropWhile_cons]
  | cons c cs ih =>
    rw [List.cons_append, List.dropWhile_cons]
    have hc : c ≠ '&' := hv c (List.mem_cons_self _ _)
    rw [if_pos (by simpa using hc)]
    exact ih (fun d hd => hv d (List.mem_cons_of_mem _ hd))

theorem stripCB1_append_safe (l m : List Char)
    (h : ∀ c ∈ l, (c = '&' ∨ c = '?') → False) :
    stripCB1 (l ++ m) = l ++ stripCB1 m := by
  induction l with
  | nil => rfl
  | cons c cs ih =>
    have hc := h c (List.mem_cons_self _ _)
    have h1 : (decide (c = '&') || decide (c = '?')) = false := by
      simp only [Bool.or_eq_false_iff, decide_eq_false_iff_not]
      exact ⟨fun h2 => hc (Or.inl h2), fun h2 => hc (Or.inr h2)⟩
    rw [List.cons_append,
      stripCB1_cons_skip c (cs ++ m) (by rw [h1, Bool.false_and]),
      ih (fun d hd => h d (List.mem_cons_of_mem _ hd)), List.cons_append]

theorem stripCB1_nil : stripCB1 [] = [] := by
  rw [stripCB1]

theorem stripCB2_nil : stripCB2 [] = [] := by
  rw [stripCB2]

theorem replaceSsl_nil : replaceSslDisable [] = [] := by
  rw [replaceSslDisable]

theorem stripCB1_id_of_safe (l : List Char)
    (h : ∀ c ∈ l, (c = '&' ∨ c = '?') → False) :
    stripCB1 l = l := by
  have h2 := stripCB1_append_safe l [] h
  rwa [List.append_nil, stripCB1_nil, List.append_nil] at h2

theorem stripCB1_amp_match (v m : List Char) (hv : ∀ c ∈ v, c ≠ '&') :
    stripCB1 ('&' :: (cbPat ++ (v ++ '&' :: m))) = stripCB1 ('&' :: m) := by
  rw [stripCB1_cons_match '&' (cbPat ++ (v ++ '&' :: m))
    (by rw [isPrefixOf_append_self]; simp)]
  rw [List.drop_left, dropWhile_amp v m hv]

theorem stripCB2_id_of_no_sub (l : List Char) (h : isSubList cbPat l = false) :
    stripCB2 l = l := by
  induction l with
  | nil => exact stripCB2_nil
  | cons c cs ih =>
    have hdef : isSubList cbPat (c :: cs) =
        (cbPat.isPrefixOf (c :: cs) || isSubList cbPat cs) := rfl
    rw [hdef] at h
    have h1 := Bool.or_eq_false_iff.mp h
    rw [stripCB2_cons_skip c cs h1.1, ih h1.2]

theorem replaceSsl_append (l m : List Char)
    (h : ∀ i, i < l.length → sslDisablePat.isPrefixOf (l.drop i ++ m) = false) :
    replaceSslDisable (l ++ m) = l ++ replaceSslDisable m := by
  induction l with
  | nil => rfl
  | cons c cs ih =>
    rw [List.cons_append, replaceSsl_cons_skip c (cs ++ m)
      (by have h0 := h 0 (by simp); simpa using h0)]
    rw [ih (fun i hi => by
      have h1 := h (i + 1) (by simp only [List.length_cons]; omega)
      simpa using h1)]
    rw [List.cons_append]

theorem replaceSsl_self : replaceSslDisable sslDisablePat = "sslmode=prefer".data := by
  have hp : sslDisablePat = 's' :: "slmode=disable".data := rfl
  rw [hp, replaceSsl_cons_match 's' "slmode=disable".data
    (by rw [← hp]; exact isPrefixOf_self _)]
  rw [show (('s' :: "slmode=disable".data).drop sslDisablePat.length) = [] from rfl]
  rw [replaceSsl_nil, List.append_nil]

theorem filter_ssl_of_filter_cb (l : List (String × String)) :
    (l.filter (fun p => p.1 ≠ "channel_binding")).filter (fun p => p.1 = "sslmode") =
      l.filter (fun p => p.1 = "sslmode") := by
  induction l with
  | nil => rfl
  | cons p rest ih =>
    simp only [List.filter_cons]
    by_cases hcb : p.1 = "channel_binding"
    · have hcbd : decide (p.1 ≠ "channel_binding") = false := by
        rw [hcb]
        decide
      have hssl : decide (p.1 = "sslmode") = false := by
        rw [hcb]
        decide
      rw [hcbd, hssl]
      simp only [Bool.false_eq_true, if_false]
      exact ih
    · have hcbd : decide (p.1 ≠ "channel_binding") = true := decide_eq_true hcb
      rw [hcbd, if_pos rfl, List.filter_cons, ih]

theorem pgBuild_url_branch (cfg : DsConfig) (u : String) (model : URLModel)
    (hc : cfg.connectionUrl = some u) (hne : u ≠ "") (hp : parseURL u = some model) :
    pgBuildConnectionString cfg =
      .ok (serializeURL (deleteParam model "channel_binding")) := by
  have htu : jsTruthy (some u) = true := by
    simp [jsTruthy, hne]
  simp only [pgBuildConnectionString, hc, htu, Bool.not_true, Bool.false_eq_true,
    if_false, hp]

/-- The fallback branch on the parametric family
`a=1&channel_binding=<v>&sslmode=disable`. -/
theorem pgFallback_family (v : List Char) (hv : ∀ c ∈ v, c ≠ '&') :
    pgFallbackClean (String.mk
      ("a=1&channel_binding=".data ++ v ++ "&sslmode=disable".data)) =
      "a=1&sslmode=prefer" := by
  have hdecomp : ("a=1&channel_binding=".data ++ v ++ "&sslmode=disable".data) =
      "a=1".data ++ ('&' :: (cbPat ++ (v ++ '&' :: "sslmode=disable".data))) := by
    rw [show "a=1&channel_binding=".data = "a=1".data ++ '&' :: cbPat from rfl]
    rw [show "&sslmode=disable".data = '&' :: "sslmode=disable".data from rfl]
    simp [List.append_assoc]
  have hc1 : stripCB1 ("a=1&channel_binding=".data ++ v ++ "&sslmode=disable".data) =
      "a=1&sslmode=disable".data := by
    rw [hdecomp]
    rw [stripCB1_append_safe "a=1".data _ (by decide)]
    rw [stripCB1_amp_match v "sslmode=disable".data hv]
    rw [stripCB1_cons_skip '&' "sslmode=disable".data (by decide)]
    rw [stripCB1_id_of_safe "sslmode=disable".data (by decide)]
    rfl
  have hc2 : stripCB2 ("a=1&sslmode=disable".data) = "a=1&sslmode=disable".data :=
    stripCB2_id_of_no_sub _ (by decide)
  have hc3 : replaceSslDisable ("a=1&sslmode=disable".data) =
      "a=1&sslmode=prefer".data := by
    rw [show "a=1&sslmode=disable".data = "a=1&".data ++ sslDisablePat from rfl]
    rw [replaceSsl_append "a=1&".data sslDisablePat (by decide)]
    rw [replaceSsl_self]
    rfl
  simp only [pgFallbackClean, hc1, hc2, hc3]
  rw [if_pos (by decide)]

/-! ### C2 claim theorems -/

/-- C2 is false as stated: for a well-formed Postgres URL the builder
takes the URL-parser branch, which deletes `channel_binding` but keeps
`sslmode=disable` — the result does not contain `sslmode=prefer`. -/
theorem claim_C2_counterexample :
    pgBuildConnectionString
        ⟨some "postgresql://h/db?channel_binding=require&sslmode=disable",
          none, none, none, none, none, none⟩ =
      .ok "postgresql://h/db?sslmode=disable" ∧
    containsSub "postgresql://h/db?sslmode=disable" "sslmode=prefer" = false ∧
    containsSub "postgresql://h/db?sslmode=disable" "sslmode=disable" = true ∧
    containsSub "postgresql://h/db?sslmode=disable" "channel_binding" = false := by
  exact ⟨by decide, by decide, by decide, by decide⟩

/-- C2 amended: the builder strips `channel_binding` in both branches,
but normalizes `sslmode=disable` to `sslmode=prefer` only in the
textual fallback branch; the URL-parser branch leaves the `sslmode`
parameters exactly as they were (so a disabled SSL mode survives). -/
theorem claim_C2_amended :
    (∀ (cfg : DsConfig) (u : String) (model : URLModel),
      cfg.connectionUrl = some u → u ≠ "" → parseURL u = some model →
      pgBuildConnectionString cfg =
        .ok (serializeURL (deleteParam model "channel_binding"))) ∧
    (∀ u : URLModel,
      ((deleteParam u "channel_binding").params.all
        (fun p => p.1 ≠ "channel_binding")) = true ∧
      (deleteParam u "channel_binding").params.filter (fun p => p.1 = "sslmode") =
        u.params.filter (fun p => p.1 = "sslmode")) ∧
    (∀ v : List Char, (∀ c ∈ v, c ≠ '&') →
      pgFallbackClean (String.mk
        ("a=1&channel_binding=".data ++ v ++ "&sslmode=disable".data)) =
        "a=1&sslmode=prefer") := by
  refine ⟨pgBuild_url_branch, ?_, pgFallback_family⟩
  intro u
  constructor
  · rw [List.all_eq_true]
    intro p hp
    exact (List.mem_filter.mp hp).2
  · exact filter_ssl_of_filter_cb u.params

theorem claim_C2_witness :
    pgBuildConnectionString
        ⟨some "postgresql://h/db?channel_binding=require&x=1", none, none, none,
          none, none, none⟩ =
      .ok (serializeURL (deleteParam
        ⟨"postgresql://h/db", [("channel_binding", "require"), ("x", "1")]⟩
        "channel_binding")) ∧
    pgFallbackClean (String.mk
      ("a=1&channel_binding=".data ++ "require".data ++ "&sslmode=disable".data)) =
      "a=1&sslmode=prefer" :=
  ⟨(claim_C2_amended).1
      ⟨some "postgresql://h/db?channel_binding=require&x=1", none, none, none,
        none, none, none⟩
      "postgresql://h/db?channel_binding=require&x=1"
      ⟨"postgresql://h/db", [("channel_binding", "require"), ("x", "1")]⟩
      rfl (by decide) (by decide),
    (claim_C2_amended).2.2 "require".data (by decide)⟩

end Qwery
